import Mathlib

/-!
Verification of the habemus/amqp-worker protocol layer.

The development shallowly embeds the repository's worker dispatch engine
(src/server/index.js, src/server/messaging.js), the requester dispatch engine
(src/client/index.js) and the shared error taxonomy (src/shared/errors.js).

JavaScript runtime pieces the code relies on are modelled executably:
JSON.stringify / JSON.parse are given as a serializer and a fuel-indexed
recursive-descent parser over a mutual inductive JSON value type (integers
stand in for JS numbers; the serializer escapes the characters JSON.stringify
escapes, and the parser understands exactly those escapes).  Broker channel
operations (publish / ack / nack) are recorded as a trace of actions, since
the spec treats the broker client as an external collaborator.
-/

namespace AmqpWorker

/-! ## JSON values

Model of the JavaScript JSON data the repository moves around.  Arrays and
objects get their own mutually inductive list types so that structural
recursion and case analysis stay elementary. -/

mutual

inductive Json where
  | null : Json
  | bool (b : Bool) : Json
  | num (i : Int) : Json
  | str (s : List Char) : Json
  | arr (elems : JsonArr) : Json
  | obj (members : JsonObj) : Json

inductive JsonArr where
  | nil : JsonArr
  | cons (head : Json) (tail : JsonArr) : JsonArr

inductive JsonObj where
  | nil : JsonObj
  | cons (key : List Char) (value : Json) (tail : JsonObj) : JsonObj

end

/-! ## Decimal digits (the number half of JSON.stringify / JSON.parse) -/

/-- Digit character of a single decimal digit. -/
def digitCh (d : Nat) : Char :=
  match d with
  | 0 => '0' | 1 => '1' | 2 => '2' | 3 => '3' | 4 => '4'
  | 5 => '5' | 6 => '6' | 7 => '7' | 8 => '8' | _ => '9'

/-- Little-endian decimal digits of a natural number, driven by fuel so the
recursion is structural; fuel at least the number itself is always enough. -/
def natDigitsRev : Nat → Nat → List Nat
  | 0, _ => []
  | f + 1, n => if n = 0 then [] else (n % 10) :: natDigitsRev f (n / 10)

/-- Decimal character run of a natural number, most significant digit first. -/
def natChars (n : Nat) : List Char :=
  if n = 0 then ['0'] else ((natDigitsRev n n).map digitCh).reverse

/-- Decimal character run of an integer: optional minus sign, then digits.
This is what JSON.stringify emits for an integral JS number. -/
def intChars (i : Int) : List Char :=
  if i < 0 then '-' :: natChars i.natAbs else natChars i.natAbs

/-- Numeric value carried by a digit character. -/
def digitVal (c : Char) : Nat := c.toNat - 48

/-- Value of a digit run, most significant digit first. -/
def parseDigits (ds : List Char) : Nat :=
  ds.foldl (fun a c => a * 10 + digitVal c) 0

/-! ## String escaping (the string half of JSON.stringify) -/

/-- One character as JSON.stringify emits it inside a string literal.  The
named escapes are exactly the ones JSON.stringify uses; other characters are
emitted verbatim (the \\u escapes for rare control characters are not
modelled, which no payload in this development exercises). -/
def escCh (c : Char) : List Char :=
  if c = '"' then ['\\', '"']
  else if c = '\\' then ['\\', '\\']
  else if c = '\n' then ['\\', 'n']
  else if c = '\t' then ['\\', 't']
  else if c = '\r' then ['\\', 'r']
  else if c = '\x08' then ['\\', 'b']
  else if c = '\x0c' then ['\\', 'f']
  else [c]

/-- A whole string body, escaped. -/
def escChars : List Char → List Char
  | [] => []
  | c :: cs => escCh c ++ escChars cs

/-! ## JSON.stringify -/

mutual

/-- Model of JSON.stringify (no added whitespace). -/
def stringifyJson : Json → List Char
  | .null => "null".data
  | .bool true => "true".data
  | .bool false => "false".data
  | .num i => intChars i
  | .str s => '"' :: (escChars s ++ ['"'])
  | .arr .nil => ['[', ']']
  | .arr (.cons h t) => '[' :: (stringifyJson h ++ (stringifyArrTail t ++ [']']))
  | .obj .nil => ['\x7b', '\x7d']
  | .obj (.cons k v t) =>
      '\x7b' :: ('"' :: (escChars k ++ ('"' :: (':' :: (stringifyJson v ++ (stringifyObjTail t ++ ['\x7d']))))))

/-- Remaining array elements, each preceded by a comma. -/
def stringifyArrTail : JsonArr → List Char
  | .nil => []
  | .cons h t => ',' :: (stringifyJson h ++ stringifyArrTail t)

/-- Remaining object members, each preceded by a comma. -/
def stringifyObjTail : JsonObj → List Char
  | .nil => []
  | .cons k v t =>
      ',' :: ('"' :: (escChars k ++ ('"' :: (':' :: (stringifyJson v ++ stringifyObjTail t)))))

end

/-! ## JSON.parse -/

/-- JSON whitespace. -/
def isWsCh (c : Char) : Bool := c = ' ' || c = '\t' || c = '\n' || c = '\r'

/-- Decimal digit character test. -/
def isDigitCh (c : Char) : Bool := 48 ≤ c.toNat && c.toNat ≤ 57

/-- Skip leading JSON whitespace. -/
def dropWs : List Char → List Char
  | [] => []
  | c :: cs => if isWsCh c then dropWs cs else c :: cs

/-- Inverse of the named escapes (plus the optional solidus escape). -/
def unescCh (c : Char) : Option Char :=
  if c = '"' then some '"'
  else if c = '\\' then some '\\'
  else if c = '/' then some '/'
  else if c = 'n' then some '\n'
  else if c = 't' then some '\t'
  else if c = 'r' then some '\r'
  else if c = 'b' then some '\x08'
  else if c = 'f' then some '\x0c'
  else none

/-- Parse a string body after the opening quote, returning the unescaped
content and the remainder after the closing quote.  Fuel keeps the recursion
structural; one unit per produced character always suffices. -/
def parseStringBody : Nat → List Char → Option (List Char × List Char)
  | 0, _ => none
  | _ + 1, [] => none
  | fuel + 1, c :: cs =>
    if c = '"' then some ([], cs)
    else if c = '\\' then
      match cs with
      | [] => none
      | e :: cs2 =>
        match unescCh e with
        | none => none
        | some u =>
          match parseStringBody fuel cs2 with
          | none => none
          | some (s, r) => some (u :: s, r)
    else
      match parseStringBody fuel cs with
      | none => none
      | some (s, r) => some (c :: s, r)

/-- Parse a nonempty digit run into a natural number. -/
def parseNumNat (cs : List Char) : Option (Nat × List Char) :=
  let ds := cs.takeWhile isDigitCh
  if ds.isEmpty then none else some (parseDigits ds, cs.dropWhile isDigitCh)

/-- Parse an integer JSON number, optional leading minus sign. -/
def parseNum (cs : List Char) : Option (Json × List Char) :=
  if cs.head? = some '-' then
    match parseNumNat cs.tail with
    | none => none
    | some (n, r) => some (.num (-(n : Int)), r)
  else
    match parseNumNat cs with
    | none => none
    | some (n, r) => some (.num ((n : Int)), r)

mutual

/-- Parse one JSON value; fuel makes the recursion structural, and the
top-level entry point always supplies enough. -/
def parseVal : Nat → List Char → Option (Json × List Char)
  | 0, _ => none
  | fuel + 1, cs =>
    match dropWs cs with
    | [] => none
    | c :: rest =>
      if c = 'n' then
        match rest with
        | 'u' :: 'l' :: 'l' :: r => some (.null, r)
        | _ => none
      else if c = 't' then
        match rest with
        | 'r' :: 'u' :: 'e' :: r => some (.bool true, r)
        | _ => none
      else if c = 'f' then
        match rest with
        | 'a' :: 'l' :: 's' :: 'e' :: r => some (.bool false, r)
        | _ => none
      else if c = '"' then
        match parseStringBody fuel rest with
        | none => none
        | some (s, r) => some (.str s, r)
      else if c = '[' then
        if (dropWs rest).head? = some ']' then some (.arr .nil, (dropWs rest).tail)
        else
          match parseItems fuel rest with
          | none => none
          | some (l, r) => some (.arr l, r)
      else if c = '\x7b' then
        if (dropWs rest).head? = some '\x7d' then some (.obj .nil, (dropWs rest).tail)
        else
          match parseMembers fuel rest with
          | none => none
          | some (m, r) => some (.obj m, r)
      else parseNum (c :: rest)

/-- Parse one-or-more comma-separated array elements up to the closing
bracket. -/
def parseItems : Nat → List Char → Option (JsonArr × List Char)
  | 0, _ => none
  | fuel + 1, cs =>
    match parseVal fuel cs with
    | none => none
    | some (j, r) =>
      match dropWs r with
      | [] => none
      | c :: r2 =>
        if c = ',' then
          match parseItems fuel r2 with
          | none => none
          | some (l, r3) => some (.cons j l, r3)
        else if c = ']' then some (.cons j .nil, r2)
        else none

/-- Parse one-or-more comma-separated object members up to the closing
brace. -/
def parseMembers : Nat → List Char → Option (JsonObj × List Char)
  | 0, _ => none
  | fuel + 1, cs =>
    match dropWs cs with
    | [] => none
    | c :: rest =>
      if c = '"' then
        match parseStringBody fuel rest with
        | none => none
        | some (k, r1) =>
          match dropWs r1 with
          | [] => none
          | c2 :: r2 =>
            if c2 = ':' then
              match parseVal fuel r2 with
              | none => none
              | some (v, r3) =>
                match dropWs r3 with
                | [] => none
                | c4 :: r4 =>
                  if c4 = ',' then
                    match parseMembers fuel r4 with
                    | none => none
                    | some (m, r5) => some (.cons k v m, r5)
                  else if c4 = '\x7d' then some (.cons k v .nil, r4)
                  else none
            else none
      else none

end

/-- Model of JSON.parse: parse one value, allow trailing whitespace only.
Returns none exactly where JSON.parse throws a SyntaxError. -/
def parseJson (cs : List Char) : Option Json :=
  match parseVal (cs.length + 1) cs with
  | none => none
  | some (j, r) => if dropWs r = [] then some j else none

/-- A remainder that cannot extend a digit run: empty or headed by a
non-digit.  Every continuation a serialized JSON document produces after a
number qualifies. -/
def goodTail : List Char → Bool
  | [] => true
  | c :: _ => !isDigitCh c

/-! ## Shared error taxonomy (src/shared/errors.js)

One constructor per error class.  A JS error's message property may be
undefined, hence Option String; the generic constructor stands for any other
JS Error a work function may throw (such an error has no toJSON method). -/

inductive JsError where
  | invalidOption (option kind : String) (message : Option String)
  | malformedMessage (message : Option String)
  | unsupportedContentType (message : Option String)
  | notConnected (message : Option String)
  | generic (name : String) (message : Option String)
deriving Repr, DecidableEq

/-- The name property each error class sets on its prototype. -/
def errName : JsError → String
  | .invalidOption _ _ _ => "InvalidOption"
  | .malformedMessage _ => "MalformedMessage"
  | .unsupportedContentType _ => "UnsupportedContentType"
  | .notConnected _ => "NotConnected"
  | .generic n _ => n

/-- The message property of the error. -/
def errMessage : JsError → Option String
  | .invalidOption _ _ m => m
  | .malformedMessage m => m
  | .unsupportedContentType m => m
  | .notConnected m => m
  | .generic _ m => m

/-- A string as a JSON value. -/
def jstr (s : String) : Json := .str s.data

/-- The optional trailing message member of a serialized error description:
JSON.stringify drops a field holding undefined. -/
def msgMember : Option String → JsonObj
  | none => .nil
  | some s => .cons "message".data (jstr s) .nil

/-- The description respondError serializes for an error: the result of the
error's own toJSON method when the class has one (InvalidOption,
MalformedMessage, UnsupportedContentType), else the default name/message
object messaging.js builds (src/server/messaging.js lines 19-24, 115-123). -/
def errToJSONData : JsError → JsonObj
  | .invalidOption opt k m =>
      .cons "name".data (jstr "InvalidOption")
        (.cons "option".data (jstr opt)
          (.cons "kind".data (jstr k) (msgMember m)))
  | .malformedMessage m => .cons "name".data (jstr "MalformedMessage") (msgMember m)
  | .unsupportedContentType m =>
      .cons "name".data (jstr "UnsupportedContentType") (msgMember m)
  | .notConnected m => .cons "name".data (jstr "NotConnected") (msgMember m)
  | .generic n m => .cons "name".data (jstr n) (msgMember m)

/-- Key lookup in a JSON object (first match). -/
def objLookup : JsonObj → List Char → Option Json
  | .nil, _ => none
  | .cons k v t, key => if k = key then some v else objLookup t key

/-! ## Broker delivery model

The message object the transport hands to a consumer, and the arguments the
engines hand back to the channel.  The spec treats the channel operations as
an external collaborator, so a channel call is recorded as an action. -/

structure MsgProperties where
  contentType : Option String := none
  contentEncoding : Option String := none
  messageId : Option String := none
  correlationId : Option String := none
  replyTo : Option String := none
  type : Option String := none
  appId : Option String := none
deriving Repr, DecidableEq

structure Message where
  properties : MsgProperties
  content : List Char
deriving Repr, DecidableEq

/-- JavaScript truthiness of a possibly-absent string property: undefined
and the empty string are falsy. -/
def strTruthy : Option String → Bool
  | none => false
  | some s => if s = "" then false else true

structure PublishOptions where
  persistent : Bool
  mandatory : Bool
  contentType : String
  contentEncoding : String
  messageId : String
  timestamp : Nat
  appId : String
  type : String
  correlationId : Option String := none
  replyTo : Option String := none
deriving Repr, DecidableEq

/-- One broker-channel operation, recorded in the order the engine performs
them.  The ack and nack signatures mirror Channel.ack(msg, allUpTo) and
Channel.nack(msg, allUpTo, requeue). -/
inductive ChannelAction where
  | publish (exchange : Option String) (routingKey : String)
      (content : List Char) (options : PublishOptions)
  | ack (allUpTo : Bool)
  | nack (allUpTo : Bool) (requeue : Bool)
deriving Repr, DecidableEq

/-- The JavaScript value publishUpdate receives: a string, an object (any
JSON structure — results, error descriptions, log-argument arrays), the
values undefined and null (whose buffer conversion throws), or some other
primitive carried via its toString text. -/
inductive JsData where
  | str (s : List Char)
  | obj (j : Json)
  | undef
  | nullVal
  | other (text : List Char)

/-- Stand-in for the engine-specific TypeError message raised by a property
access on undefined or null. -/
def typeErrMsg : String := "Cannot read properties of undefined"

/-- The buffer conversion of publishUpdate (src/server/messaging.js lines
145-157): strings become text/plain bytes, objects are JSON-serialized with
the JSON content type, anything else goes through toString as text/plain —
which throws a TypeError when the data is undefined or null, since neither
is a string, an instance of Object, or a value carrying toString. -/
def encodeBody : JsData → Except JsError (String × List Char)
  | .str s => .ok ("text/plain", s)
  | .obj j => .ok ("application/json", stringifyJson j)
  | .undef => .error (.generic "TypeError" (some typeErrMsg))
  | .nullVal => .error (.generic "TypeError" (some typeErrMsg))
  | .other text => .ok ("text/plain", text)

/-- The JavaScript value a faulting work function rejects with or throws:
an Error instance (the taxonomy's classes or any other Error), the nullish
values undefined and null, or some other value without a toJSON method
(a thrown string or number, or a plain object). -/
inductive JsFault where
  | err (e : JsError)
  | nullish
  | plain

/-- The description respondError derives from a fault value
(src/server/messaging.js lines 117-123): the error's toJSON result or the
name/message fallback for Error instances; none when the fault is nullish,
because the err.toJSON property access itself throws; and the empty object
for other values, whose name and message properties read as undefined and
are dropped by JSON.stringify. -/
def faultToJSONData : JsFault → Option JsonObj
  | .err e => some (errToJSONData e)
  | .nullish => none
  | .plain => some .nil

/-! ## Worker dispatch engine (src/server/index.js, src/server/messaging.js) -/

/-- The HWorkerServer instance fields messaging.js reads.  The constructor
sets workerExchangeName, but publishUpdate reads taskExchangeName, which no
server code path assigns, so the exchange argument handed to
channel.publish is the JS value undefined, modelled as none. -/
structure WorkerState where
  appId : String
  taskExchangeName : Option String := none
deriving Repr, DecidableEq

/-- Stand-in for the JS runtime's SyntaxError message text, whose exact
wording is engine-specific; MalformedMessage wraps it on the worker side. -/
def jsonParseErrMsg : String := "Unexpected token in JSON"

/-- Model of publishUpdate (src/server/messaging.js lines 138-173): throws
InvalidOption when the source message has no truthy replyTo; then runs the
buffer conversion, which throws a TypeError when the data is undefined or
null (the uuid is drawn only after both checks pass); otherwise performs
one publish with the merged options (defaults, then the caller's type, then
the generated messageId, timestamp, appId, the correlationId copied from
the source messageId, and the content type derived from the data's shape). -/
def publishUpdate (st : WorkerState) (src : Message) (data : JsData)
    (typ : String) (msgId : String) (now : Nat) : Except JsError ChannelAction :=
  if strTruthy src.properties.replyTo = false then
    .error (.invalidOption "sourceMessage" "malformed" none)
  else
    match encodeBody data with
    | .error e => .error e
    | .ok (ct, body) =>
      .ok (.publish st.taskExchangeName (src.properties.replyTo.getD "")
        body
        { persistent := true
          mandatory := false
          contentType := ct
          contentEncoding := "utf8"
          messageId := msgId
          timestamp := now
          appId := st.appId
          type := typ
          correlationId := src.properties.messageId
          replyTo := none })

/-- Model of respondSuccess (src/server/messaging.js lines 101-107): ack
first, then publish the result:success update; a throw from publishUpdate
escapes after the ack already happened. -/
def respondSuccess (st : WorkerState) (src : Message) (result : JsData)
    (msgId : String) (now : Nat) : List ChannelAction × Option JsError :=
  match publishUpdate st src result "result:success" msgId now with
  | .error e => ([.ack false], some e)
  | .ok a => ([.ack false, a], none)

/-- Model of respondError (src/server/messaging.js lines 115-130): derive
the error description (the err.toJSON property access throws a TypeError
when the fault value is undefined or null, before anything else happens),
publish the result:error update carrying it, then nack with allUpTo false
and requeue false; a throw escapes before the nack. -/
def respondError (st : WorkerState) (src : Message) (err : JsFault)
    (msgId : String) (now : Nat) : List ChannelAction × Option JsError :=
  match faultToJSONData err with
  | none => ([], some (.generic "TypeError" (some typeErrMsg)))
  | some d =>
    match publishUpdate st src (.obj (.obj d)) "result:error" msgId now with
    | .error e => ([], some e)
    | .ok a => ([a, .nack false false], none)

inductive LogLevel where
  | info
  | warning
  | error
deriving Repr, DecidableEq

/-- The update type each logger level publishes. -/
def logType : LogLevel → String
  | .info => "log:info"
  | .warning => "log:warning"
  | .error => "log:error"

/-- What one invocation of the work function does: the logger calls it makes
in order, each carrying the sliced argument array, and its eventual outcome
(resolution value, or the error it throws with or rejects with).  The model
collapses synchronous return, promise resolution and synchronous throw into
this one outcome, exactly as the promise wrapper in handleMessage does. -/
structure WorkRun where
  logs : List (LogLevel × JsonArr)
  outcome : Except JsFault JsData

/-- Publishes the log updates of a run in the order the logger was invoked
(logInfo / logWarning / logError of src/server/messaging.js via the logger
that _makeLogger binds).  Each call slices the extra arguments into an array
and hands it to publishUpdate.  When a publish throws — possible only
without a truthy replyTo — the exception aborts the work function, so
processing stops and the error becomes the run's outcome. -/
def processLogs (st : WorkerState) (src : Message) (us : Nat → String) (now : Nat) :
    Nat → List (LogLevel × JsonArr) → List ChannelAction × Nat × Option JsError
  | i, [] => ([], i, none)
  | i, (lvl, args) :: rest =>
    match publishUpdate st src (.obj (.arr args)) (logType lvl) (us i) now with
    | .error e => ([], i, some e)
    | .ok a =>
      match processLogs st src us now (i + 1) rest with
      | (acts, i2, e2) => (a :: acts, i2, e2)

/-- Observable result of handleMessage on one delivery: the channel actions
in order, whether the work function ran, and the error that escaped the
handler (synchronously, or as an unhandled rejection), if any. -/
structure HandleResult where
  actions : List ChannelAction
  workerCalled : Bool
  leaked : Option JsError

/-- Model of HWorkerServer.prototype.handleMessage (src/server/index.js
lines 187-230) together with the default handleError (lines 240-242).  The
workerFn parameter gives, per decoded payload, the logger calls and the
outcome of the registered work function; us supplies the successive
uuid.v4() results and now the Date.now() timestamp.  A throw escaping
respondSuccess (its publishUpdate's buffer conversion on an undefined or
null result, after the ack) rejects the promise chain, so the catch routes
it to handleError, hence respondError, like any work-function fault. -/
def handleMessage (st : WorkerState) (workerFn : Json → WorkRun)
    (us : Nat → String) (now : Nat) (message : Option Message) : HandleResult :=
  match message with
  | none => { actions := [], workerCalled := false, leaked := none }
  | some msg =>
    if msg.properties.contentType ≠ some "application/json" then
      match respondError st msg (.err (.unsupportedContentType msg.properties.contentType))
          (us 0) now with
      | (acts, e) => { actions := acts, workerCalled := false, leaked := e }
    else
      match parseJson msg.content with
      | none =>
        match respondError st msg (.err (.malformedMessage (some jsonParseErrMsg)))
            (us 0) now with
        | (acts, e) => { actions := acts, workerCalled := false, leaked := e }
      | some payload =>
        let run := workerFn payload
        match processLogs st msg us now 0 run.logs with
        | (logActs, i, some e) =>
          match respondError st msg (.err e) (us i) now with
          | (acts, e2) => { actions := logActs ++ acts, workerCalled := true, leaked := e2 }
        | (logActs, i, none) =>
          match run.outcome with
          | .ok v =>
            match respondSuccess st msg v (us i) now with
            | (acts, none) =>
              { actions := logActs ++ acts, workerCalled := true, leaked := none }
            | (acts, some e) =>
              match respondError st msg (.err e) (us i) now with
              | (acts2, e2) =>
                { actions := logActs ++ acts ++ acts2, workerCalled := true, leaked := e2 }
          | .error err =>
            match respondError st msg err (us i) now with
            | (acts, e2) => { actions := logActs ++ acts, workerCalled := true, leaked := e2 }

/-! ## Requester dispatch engine (src/client/index.js) -/

structure ClientState where
  name : String
  workerExchangeName : String
  workerQueueName : String
  appId : String
  updatesQueueName : String
  channel : Bool
deriving Repr, DecidableEq

/-- The name derivations the HWorkerClient constructor performs (lines
22-32); channel records whether connect has set this.channel yet. -/
def mkClient (name appId : String) (channel : Bool) : ClientState :=
  { name := name
    workerExchangeName := name ++ "-exchange"
    workerQueueName := name
    appId := appId
    updatesQueueName := name ++ "-updates-" ++ appId
    channel := channel }

/-- JavaScript truthiness of the schedule payload (undefined modelled as
none).  Among JSON-able payloads the falsy values are undefined, null,
false, 0 and the empty string. -/
def jsTruthy : Option Json → Bool
  | none => false
  | some .null => false
  | some (.bool b) => b
  | some (.num i) => if i = 0 then false else true
  | some (.str s) => if s = [] then false else true
  | some (.arr _) => true
  | some (.obj _) => true

/-- Model of HWorkerClient.prototype.schedule (src/client/index.js lines
136-163): throws NotConnected before any broker interaction when no channel
is set; otherwise substitutes the empty object for a falsy payload,
serializes it, publishes the work request to the worker exchange and queue,
and returns the generated request id.  requestId stands for the uuid.v4()
value and now for Date.now(). -/
def schedule (st : ClientState) (requestId : String) (now : Nat)
    (data : Option Json) : Except JsError (ChannelAction × String) :=
  if st.channel = false then
    .error (.notConnected (some "not connected"))
  else
    let payload :=
      match data with
      | none => Json.obj .nil
      | some j => if jsTruthy (some j) then j else Json.obj .nil
    .ok (.publish (some st.workerExchangeName) st.workerQueueName
      (stringifyJson payload)
      { persistent := true
        mandatory := true
        contentType := "application/json"
        contentEncoding := "utf8"
        messageId := requestId
        timestamp := now
        appId := st.appId
        type := "work-request"
        correlationId := none
        replyTo := some st.updatesQueueName }, requestId)

/-- A failure escaping handleUpdateMessage: the uncaught SyntaxError a
malformed JSON body makes JSON.parse throw. -/
inductive ClientError where
  | syntaxError (message : String)
deriving Repr, DecidableEq

/-- The payload handed to listeners: parsed JSON for the JSON content type,
the raw content otherwise. -/
inductive Decoded where
  | json (j : Json)
  | raw (content : List Char)

/-- A local observable effect of handleUpdateMessage: one emitted event, or
the console warning for an unknown update type. -/
inductive ClientEvent where
  | emit (kind : String) (requestId : String) (payload : Decoded)
  | warnUnknown

/-- The requester-side decode step (src/client/index.js lines 181-185):
the JSON content type goes through JSON.parse, whose SyntaxError nothing
catches; any other content type passes the raw content through. -/
def decodeBody (contentType : Option String) (content : List Char) :
    Except ClientError Decoded :=
  if contentType = some "application/json" then
    match parseJson content with
    | some j => .ok (.json j)
    | none => .error (.syntaxError jsonParseErrMsg)
  else .ok (.raw content)

/-- Model of HWorkerClient.prototype.handleUpdateMessage (src/client/index.js
lines 172-207): drop the delivery unless it carries a truthy correlationId,
decode the content per its content type, then demultiplex on the type
property, warning on anything unrecognized. -/
def handleUpdateMessage (message : Option Message) :
    Except ClientError (List ClientEvent) :=
  match message with
  | none => .ok []
  | some m =>
    if strTruthy m.properties.correlationId = false then .ok []
    else
      let requestId := m.properties.correlationId.getD ""
      match decodeBody m.properties.contentType m.content with
      | .error e => .error e
      | .ok payload =>
        let t := m.properties.type
        if t = some "result:success" then .ok [.emit "result:success" requestId payload]
        else if t = some "result:error" then .ok [.emit "result:error" requestId payload]
        else if t = some "log:info" then .ok [.emit "log:info" requestId payload]
        else if t = some "log:warning" then .ok [.emit "log:warning" requestId payload]
        else if t = some "log:error" then .ok [.emit "log:error" requestId payload]
        else .ok [.warnUnknown]

/-! ## Trace observations -/

/-- The type property of a published update; ack and nack carry none. -/
def actionType : ChannelAction → Option String
  | .publish _ _ _ o => some o.type
  | _ => none

def isPublish : ChannelAction → Bool
  | .publish _ _ _ _ => true
  | _ => false

def isAckNack : ChannelAction → Bool
  | .ack _ => true
  | .nack _ _ => true
  | _ => false

def isResultSuccess (a : ChannelAction) : Bool := actionType a = some "result:success"

def isResultError (a : ChannelAction) : Bool := actionType a = some "result:error"

def isLogUpdate (a : ChannelAction) : Bool :=
  actionType a = some "log:info" || actionType a = some "log:warning" ||
    actionType a = some "log:error"

/-- A channel action correlates with its originating delivery: a publish
carries the source's messageId as correlationId and is routed to the
source's replyTo queue; ack and nack carry no routing data. -/
def publishCorrelated (p : MsgProperties) : ChannelAction → Prop
  | .publish _ rk _ o => o.correlationId = p.messageId ∧ some rk = p.replyTo
  | .ack _ => True
  | .nack _ _ => True

/-! ## Concrete fixtures used by witnesses and counterexamples -/

/-- A worker instance as the HWorkerServer constructor builds it
(taskExchangeName stays unset). -/
def wst0 : WorkerState := { appId := "worker-app" }

/-- A deterministic stand-in for the stream of uuid.v4() values. -/
def us0 : Nat → String := fun i => "uuid-" ++ toString i

/-- A well-formed Work Envelope delivery carrying the JSON body null. -/
def msgJson0 : Message :=
  { properties :=
      { contentType := some "application/json"
        contentEncoding := some "utf8"
        messageId := some "req-1"
        replyTo := some "updates-q"
        type := some "work-request"
        appId := some "client-app" }
    content := "null".data }

/-- A delivery declaring an unsupported content type. -/
def msgText0 : Message :=
  { properties :=
      { contentType := some "text/plain"
        messageId := some "req-2"
        replyTo := some "updates-q" }
    content := "hello".data }

/-- A delivery declaring JSON but carrying a malformed body. -/
def msgBad0 : Message :=
  { properties :=
      { contentType := some "application/json"
        messageId := some "req-3"
        replyTo := some "updates-q" }
    content := "not good json".data }

/-- A work function that succeeds with a plain string result and logs
nothing. -/
def wfPure : Json → WorkRun :=
  fun _ => { logs := [], outcome := .ok (.str "done".data) }

/-- A work function that throws an Error whose message is error!!!. -/
def wfFail : Json → WorkRun :=
  fun _ => { logs := [], outcome := .error (.err (.generic "Error" (some "error!!!"))) }

/-- A work function that resolves with undefined: it returns no value. -/
def wfNoResult : Json → WorkRun :=
  fun _ => { logs := [], outcome := .ok .undef }

/-- A work function that rejects with the value undefined itself. -/
def wfNullishThrow : Json → WorkRun :=
  fun _ => { logs := [], outcome := .error .nullish }

/-- A connected requester instance. -/
def clientOn : ClientState := mkClient "test-task" "client-app" true

/-- A requester instance before connect has completed. -/
def clientOff : ClientState := mkClient "test-task" "client-app" false

/-- An Update Envelope delivery: result:success with an empty-object body. -/
def updSuccess0 : Message :=
  { properties :=
      { contentType := some "application/json"
        correlationId := some "req-1"
        type := some "result:success"
        messageId := some "upd-1"
        appId := some "worker-app" }
    content := ['\x7b', '\x7d'] }

/-- An update delivery with no correlation id. -/
def updNoCorr0 : Message :=
  { properties :=
      { contentType := some "application/json"
        type := some "result:success" }
    content := ['\x7b', '\x7d'] }

/-- An update delivery with an unrecognized type. -/
def updUnknown0 : Message :=
  { properties :=
      { contentType := some "application/json"
        correlationId := some "req-1"
        type := some "telemetry:cpu" }
    content := ['\x7b', '\x7d'] }

/-- An update delivery declaring JSON with a malformed body. -/
def updBad0 : Message :=
  { properties :=
      { contentType := some "application/json"
        correlationId := some "req-4"
        type := some "result:success" }
    content := "oops".data }

/-! ## Codec inverse lemmas: digits -/

theorem digitVal_digitCh {d : Nat} (h : d < 10) : digitVal (digitCh d) = d := by
  interval_cases d <;> decide

theorem isDigitCh_digitCh {d : Nat} (h : d < 10) : isDigitCh (digitCh d) = true := by
  interval_cases d <;> decide

theorem natDigitsRev_lt {f n d : Nat} (h : d ∈ natDigitsRev f n) : d < 10 := by
  induction f generalizing n with
  | zero => simp [natDigitsRev] at h
  | succ f ih =>
    rw [natDigitsRev] at h
    by_cases hn : n = 0
    · simp [hn] at h
    · rw [if_neg hn] at h
      rcases List.mem_cons.mp h with h1 | h2
      · subst h1; exact Nat.mod_lt _ (by omega)
      · exact ih h2

theorem foldl_digits (f : Nat) : ∀ (n a : Nat), n ≤ f →
    List.foldl (fun a c => a * 10 + digitVal c) a (((natDigitsRev f n).map digitCh).reverse)
      = a * 10 ^ (natDigitsRev f n).length + n := by
  induction f with
  | zero =>
    intro n a hn
    have hz : n = 0 := by omega
    subst hz
    simp [natDigitsRev]
  | succ f ih =>
    intro n a hn
    by_cases hz : n = 0
    · subst hz; simp [natDigitsRev]
    · have hrec : natDigitsRev (f + 1) n = (n % 10) :: natDigitsRev f (n / 10) := by
        simp [natDigitsRev, hz]
      rw [hrec]
      simp only [List.map_cons, List.reverse_cons, List.foldl_append, List.foldl_cons,
        List.foldl_nil, List.length_cons]
      rw [ih (n / 10) a (by omega), digitVal_digitCh (Nat.mod_lt _ (by omega))]
      have hsplit : (a * 10 ^ (natDigitsRev f (n / 10)).length + n / 10) * 10 + n % 10
          = a * (10 ^ (natDigitsRev f (n / 10)).length * 10) + (10 * (n / 10) + n % 10) := by
        ring
      rw [pow_succ, hsplit, Nat.div_add_mod]

theorem parseDigits_natChars (n : Nat) : parseDigits (natChars n) = n := by
  by_cases hz : n = 0
  · subst hz; decide
  · rw [natChars, if_neg hz]
    have h := foldl_digits n n 0 (le_refl n)
    simpa [parseDigits] using h

theorem natChars_all_digits {n : Nat} : ∀ c ∈ natChars n, isDigitCh c = true := by
  intro c hc
  by_cases hz : n = 0
  · subst hz
    simp [natChars] at hc
    subst hc; decide
  · rw [natChars, if_neg hz] at hc
    rw [List.mem_reverse, List.mem_map] at hc
    obtain ⟨d, hd, rfl⟩ := hc
    exact isDigitCh_digitCh (natDigitsRev_lt hd)

theorem natChars_ne_nil (n : Nat) : natChars n ≠ [] := by
  by_cases hz : n = 0
  · subst hz; simp [natChars]
  · rw [natChars, if_neg hz]
    obtain ⟨f, rfl⟩ := Nat.exists_eq_succ_of_ne_zero hz
    simp [natDigitsRev]

theorem natChars_head (n : Nat) : ∃ c t, natChars n = c :: t ∧ isDigitCh c = true := by
  cases hnc : natChars n with
  | nil => exact absurd hnc (natChars_ne_nil n)
  | cons c t =>
    refine ⟨c, t, rfl, natChars_all_digits (n := n) c ?_⟩
    rw [hnc]
    exact List.mem_cons_self c t

theorem isDigitCh_toNat {c : Char} (h : isDigitCh c = true) :
    48 ≤ c.toNat ∧ c.toNat ≤ 57 := by
  simpa [isDigitCh] using h

theorem digit_not_special {c : Char} (h : isDigitCh c = true) :
    isWsCh c = false ∧ c ≠ 'n' ∧ c ≠ 't' ∧ c ≠ 'f' ∧ c ≠ '"' ∧ c ≠ '[' ∧
      c ≠ '\x7b' ∧ c ≠ '-' ∧ c ≠ ']' := by
  have hb := isDigitCh_toNat h
  refine ⟨?_, ?_, ?_, ?_, ?_, ?_, ?_, ?_, ?_⟩
  · cases hws : isWsCh c
    · rfl
    · exfalso
      simp only [isWsCh, Bool.or_eq_true, decide_eq_true_eq] at hws
      rcases hws with ((rfl | rfl) | rfl) | rfl <;> revert hb <;> decide
  all_goals (rintro rfl; revert hb; decide)

/-! ## Codec inverse lemmas: strings, heads, whitespace -/

theorem parseStringBody_esc_step (g : Nat) (e u : Char) (X : List Char)
    (hu : unescCh e = some u) :
    parseStringBody (g + 1) ('\\' :: e :: X)
      = match parseStringBody g X with
        | none => none
        | some (s, r) => some (u :: s, r) := by
  rw [show parseStringBody (g + 1) ('\\' :: e :: X)
        = (match unescCh e with
           | none => none
           | some u =>
             match parseStringBody g X with
             | none => none
             | some (s, r) => some (u :: s, r)) from rfl]
  rw [hu]

theorem parseStringBody_plain_step (g : Nat) (c : Char) (X : List Char)
    (h1 : c ≠ '"') (h2 : c ≠ '\\') :
    parseStringBody (g + 1) (c :: X)
      = match parseStringBody g X with
        | none => none
        | some (s, r) => some (c :: s, r) := by
  simp only [parseStringBody]
  rw [if_neg h1, if_neg h2]

theorem escCh_length_pos (c : Char) : 1 ≤ (escCh c).length := by
  rw [escCh]
  split_ifs <;> simp

theorem escChars_length_ge : ∀ s : List Char, s.length ≤ (escChars s).length := by
  intro s
  induction s with
  | nil => simp [escChars]
  | cons c cs ih =>
    rw [escChars]
    simp only [List.length_append, List.length_cons]
    have := escCh_length_pos c
    omega

theorem parseStringBody_escChars : ∀ (s : List Char) (fuel : Nat) (rest : List Char),
    s.length < fuel →
    parseStringBody fuel (escChars s ++ ('"' :: rest)) = some (s, rest) := by
  intro s
  induction s with
  | nil =>
    intro fuel rest hf
    obtain ⟨g, rfl⟩ := Nat.exists_eq_succ_of_ne_zero (by omega : fuel ≠ 0)
    rfl
  | cons c cs ih =>
    intro fuel rest hf
    obtain ⟨g, rfl⟩ := Nat.exists_eq_succ_of_ne_zero (by omega : fuel ≠ 0)
    have hg : cs.length < g := by
      simp only [List.length_cons] at hf
      omega
    rw [escChars, List.append_assoc]
    by_cases h1 : c = '"'
    · subst h1
      rw [show escCh '"' ++ (escChars cs ++ ('"' :: rest))
            = '\\' :: '"' :: (escChars cs ++ ('"' :: rest)) from rfl]
      rw [parseStringBody_esc_step g '"' '"' _ rfl, ih g rest hg]
    · by_cases h2 : c = '\\'
      · subst h2
        rw [show escCh '\\' ++ (escChars cs ++ ('"' :: rest))
              = '\\' :: '\\' :: (escChars cs ++ ('"' :: rest)) from rfl]
        rw [parseStringBody_esc_step g '\\' '\\' _ rfl, ih g rest hg]
      · by_cases h3 : c = '\n'
        · subst h3
          rw [show escCh '\n' ++ (escChars cs ++ ('"' :: rest))
                = '\\' :: 'n' :: (escChars cs ++ ('"' :: rest)) from rfl]
          rw [parseStringBody_esc_step g 'n' '\n' _ rfl, ih g rest hg]
        · by_cases h4 : c = '\t'
          · subst h4
            rw [show escCh '\t' ++ (escChars cs ++ ('"' :: rest))
                  = '\\' :: 't' :: (escChars cs ++ ('"' :: rest)) from rfl]
            rw [parseStringBody_esc_step g 't' '\t' _ rfl, ih g rest hg]
          · by_cases h5 : c = '\r'
            · subst h5
              rw [show escCh '\r' ++ (escChars cs ++ ('"' :: rest))
                    = '\\' :: 'r' :: (escChars cs ++ ('"' :: rest)) from rfl]
              rw [parseStringBody_esc_step g 'r' '\r' _ rfl, ih g rest hg]
            · by_cases h6 : c = '\x08'
              · subst h6
                rw [show escCh '\x08' ++ (escChars cs ++ ('"' :: rest))
                      = '\\' :: 'b' :: (escChars cs ++ ('"' :: rest)) from rfl]
                rw [parseStringBody_esc_step g 'b' '\x08' _ rfl, ih g rest hg]
              · by_cases h7 : c = '\x0c'
                · subst h7
                  rw [show escCh '\x0c' ++ (escChars cs ++ ('"' :: rest))
                        = '\\' :: 'f' :: (escChars cs ++ ('"' :: rest)) from rfl]
                  rw [parseStringBody_esc_step g 'f' '\x0c' _ rfl, ih g rest hg]
                · rw [escCh, if_neg h1, if_neg h2, if_neg h3, if_neg h4, if_neg h5,
                    if_neg h6, if_neg h7, List.singleton_append]
                  rw [parseStringBody_plain_step g c _ h1 h2, ih g rest hg]

theorem stringifyJson_head (j : Json) :
    ∃ c t, stringifyJson j = c :: t ∧ isWsCh c = false ∧ c ≠ ']' := by
  cases j with
  | null => exact ⟨'n', _, rfl, by decide, by decide⟩
  | bool b =>
    cases b with
    | false => exact ⟨'f', _, rfl, by decide, by decide⟩
    | true => exact ⟨'t', _, rfl, by decide, by decide⟩
  | num i =>
    by_cases hi : i < 0
    · refine ⟨'-', natChars i.natAbs, ?_, by decide, by decide⟩
      simp [stringifyJson, intChars, hi]
    · obtain ⟨c, t, hct, hd⟩ := natChars_head i.natAbs
      obtain ⟨hws, _, _, _, _, _, _, _, hne⟩ := digit_not_special hd
      refine ⟨c, t, ?_, hws, hne⟩
      simp [stringifyJson, intChars, hi, hct]
  | str s => exact ⟨'"', _, rfl, by decide, by decide⟩
  | arr a =>
    cases a with
    | nil => exact ⟨'[', _, rfl, by decide, by decide⟩
    | cons h t => exact ⟨'[', _, rfl, by decide, by decide⟩
  | obj o =>
    cases o with
    | nil => exact ⟨'\x7b', _, rfl, by decide, by decide⟩
    | cons k v t => exact ⟨'\x7b', _, rfl, by decide, by decide⟩

theorem stringify_length_pos (j : Json) : 1 ≤ (stringifyJson j).length := by
  obtain ⟨c, t, hct, _, _⟩ := stringifyJson_head j
  rw [hct]
  simp

theorem dropWs_cons_of {c : Char} (h : isWsCh c = false) (l : List Char) :
    dropWs (c :: l) = c :: l := by
  simp [dropWs, h]

theorem dropWs_stringify_append (j : Json) (x : List Char) :
    dropWs (stringifyJson j ++ x) = stringifyJson j ++ x := by
  obtain ⟨c, t, hct, hws, _⟩ := stringifyJson_head j
  rw [hct, List.cons_append, dropWs_cons_of hws]

theorem takeWhile_all_append {p : Char → Bool} : ∀ (l r : List Char),
    (∀ c ∈ l, p c = true) → (∀ c t, r = c :: t → p c = false) →
    (l ++ r).takeWhile p = l ∧ (l ++ r).dropWhile p = r := by
  intro l
  induction l with
  | nil =>
    intro r _ hr
    cases r with
    | nil => simp
    | cons c t => simp [List.takeWhile_cons, List.dropWhile_cons, hr c t rfl]
  | cons c l ih =>
    intro r hl hr
    have hc : p c = true := hl c (List.mem_cons_self c l)
    have hrest := ih r (fun x hx => hl x (List.mem_cons_of_mem c hx)) hr
    simp [List.takeWhile_cons, List.dropWhile_cons, hc, hrest.1, hrest.2]

/-! ## Codec inverse lemmas: numbers through the parser -/

theorem parseNumNat_natChars (n : Nat) (rest : List Char) (hr : goodTail rest = true) :
    parseNumNat (natChars n ++ rest) = some (n, rest) := by
  have hrr : ∀ c t, rest = c :: t → isDigitCh c = false := by
    intro c t hct
    subst hct
    simpa [goodTail] using hr
  obtain ⟨htake, hdrop⟩ :=
    takeWhile_all_append (natChars n) rest (fun c hc => natChars_all_digits c hc) hrr
  have hne2 : ¬ (natChars n).isEmpty = true := by
    simpa [List.isEmpty_iff] using natChars_ne_nil n
  rw [parseNumNat]
  simp only [htake, hdrop]
  rw [if_neg hne2, parseDigits_natChars]

theorem parseNum_intChars (i : Int) (rest : List Char) (hr : goodTail rest = true) :
    parseNum (intChars i ++ rest) = some (.num i, rest) := by
  by_cases hi : i < 0
  · rw [intChars, if_pos hi, List.cons_append, parseNum]
    have hh : (('-' :: (natChars i.natAbs ++ rest)).head? = some '-') := rfl
    rw [if_pos hh, List.tail_cons, parseNumNat_natChars i.natAbs rest hr]
    have hv : -((i.natAbs : Nat) : Int) = i := by omega
    show some (Json.num (-((i.natAbs : Nat) : Int)), rest) = some (Json.num i, rest)
    rw [hv]
  · obtain ⟨c, t, hct, hd⟩ := natChars_head i.natAbs
    have hcm : c ≠ '-' := (digit_not_special hd).2.2.2.2.2.2.2.1
    rw [intChars, if_neg hi, parseNum]
    have hne : ¬ ((natChars i.natAbs ++ rest).head? = some '-') := by
      rw [hct, List.cons_append, List.head?_cons]
      simp [hcm]
    rw [if_neg hne, parseNumNat_natChars i.natAbs rest hr]
    have hv : ((i.natAbs : Nat) : Int) = i := by omega
    show some (Json.num ((i.natAbs : Nat) : Int), rest) = some (Json.num i, rest)
    rw [hv]

/-! ## One-step unfolding equations for the value parser (all definitional) -/

theorem parseVal_route_num (fuel : Nat) (c : Char) (t : List Char)
    (hws : isWsCh c = false) (h1 : c ≠ 'n') (h2 : c ≠ 't') (h3 : c ≠ 'f')
    (h4 : c ≠ '"') (h5 : c ≠ '[') (h6 : c ≠ '\x7b') :
    parseVal (fuel + 1) (c :: t) = parseNum (c :: t) := by
  simp only [parseVal, dropWs_cons_of hws]
  rw [if_neg h1, if_neg h2, if_neg h3, if_neg h4, if_neg h5, if_neg h6]

theorem parseVal_num (fuel : Nat) (i : Int) (rest : List Char)
    (hr : goodTail rest = true) :
    parseVal (fuel + 1) (intChars i ++ rest) = some (.num i, rest) := by
  by_cases hi : i < 0
  · have h := parseNum_intChars i rest hr
    rw [intChars, if_pos hi, List.cons_append] at h ⊢
    rw [parseVal_route_num fuel '-' _ (by decide) (by decide) (by decide) (by decide)
      (by decide) (by decide) (by decide)]
    exact h
  · obtain ⟨c, t, hct, hd⟩ := natChars_head i.natAbs
    obtain ⟨hws, hn, ht2, hf2, hq, hbk, hbc, _, _⟩ := digit_not_special hd
    have h := parseNum_intChars i rest hr
    rw [intChars, if_neg hi, hct, List.cons_append] at h ⊢
    rw [parseVal_route_num fuel c _ hws hn ht2 hf2 hq hbk hbc]
    exact h

theorem parseVal_quote (fuel : Nat) (t : List Char) :
    parseVal (fuel + 1) ('"' :: t)
      = match parseStringBody fuel t with
        | none => none
        | some (s, r) => some (Json.str s, r) := rfl

theorem parseVal_arrCons (fuel : Nat) (t : List Char) :
    parseVal (fuel + 1) ('[' :: t)
      = (if (dropWs t).head? = some ']' then some (Json.arr .nil, (dropWs t).tail)
         else
           match parseItems fuel t with
           | none => none
           | some (l, r) => some (Json.arr l, r)) := rfl

theorem parseVal_objCons (fuel : Nat) (t : List Char) :
    parseVal (fuel + 1) ('\x7b' :: t)
      = (if (dropWs t).head? = some '\x7d' then some (Json.obj .nil, (dropWs t).tail)
         else
           match parseMembers fuel t with
           | none => none
           | some (m, r) => some (Json.obj m, r)) := rfl

theorem parseItems_step (fuel : Nat) (cs : List Char) :
    parseItems (fuel + 1) cs
      = (match parseVal fuel cs with
         | none => none
         | some (j, r) =>
           match dropWs r with
           | [] => none
           | c :: r2 =>
             if c = ',' then
               match parseItems fuel r2 with
               | none => none
               | some (l, r3) => some (.cons j l, r3)
             else if c = ']' then some (.cons j .nil, r2)
             else none) := rfl

theorem parseMembers_step (fuel : Nat) (t : List Char) :
    parseMembers (fuel + 1) ('"' :: t)
      = (match parseStringBody fuel t with
         | none => none
         | some (k, r1) =>
           match dropWs r1 with
           | [] => none
           | c2 :: r2 =>
             if c2 = ':' then
               match parseVal fuel r2 with
               | none => none
               | some (v, r3) =>
                 match dropWs r3 with
                 | [] => none
                 | c4 :: r4 =>
                   if c4 = ',' then
                     match parseMembers fuel r4 with
                     | none => none
                     | some (m, r5) => some (.cons k v m, r5)
                   else if c4 = '\x7d' then some (.cons k v .nil, r4)
                   else none
             else none) := rfl

/-! ## The codec round-trip, by joint induction on parser fuel -/

theorem parse_stringify_all : ∀ fuel : Nat,
    (∀ (j : Json) (rest : List Char),
       (stringifyJson j).length ≤ fuel → goodTail rest = true →
       parseVal fuel (stringifyJson j ++ rest) = some (j, rest)) ∧
    (∀ (h : Json) (t : JsonArr) (rest : List Char),
       (stringifyJson h ++ stringifyArrTail t).length < fuel →
       parseItems fuel (stringifyJson h ++ (stringifyArrTail t ++ (']' :: rest)))
         = some (.cons h t, rest)) ∧
    (∀ (k : List Char) (v : Json) (t : JsonObj) (rest : List Char),
       ('"' :: (escChars k ++ ('"' :: (':' :: (stringifyJson v ++ stringifyObjTail t))))).length < fuel →
       parseMembers fuel
         ('"' :: (escChars k ++ ('"' :: (':' :: (stringifyJson v ++ (stringifyObjTail t ++ ('\x7d' :: rest)))))))
         = some (.cons k v t, rest)) := by
  intro fuel
  induction fuel with
  | zero =>
    refine ⟨?_, ?_, ?_⟩
    · intro j rest hlen _
      have := stringify_length_pos j
      omega
    · intro h t rest hlen
      omega
    · intro k v t rest hlen
      omega
  | succ fuel ih =>
    obtain ⟨ihV, ihA, ihO⟩ := ih
    refine ⟨?_, ?_, ?_⟩
    · intro j rest hlen hrest
      cases j with
      | null => rfl
      | bool b =>
        cases b with
        | false => rfl
        | true => rfl
      | num i => exact parseVal_num fuel i rest hrest
      | str s =>
        have hs : s.length < fuel := by
          simp only [stringifyJson, List.length_cons, List.length_append,
            List.length_nil] at hlen
          have := escChars_length_ge s
          omega
        have harg : stringifyJson (.str s) ++ rest
            = '"' :: (escChars s ++ ('"' :: rest)) := by
          simp [stringifyJson, List.append_assoc]
        rw [harg, parseVal_quote, parseStringBody_escChars s fuel rest hs]
      | arr a =>
        cases a with
        | nil => rfl
        | cons h t =>
          have harg : stringifyJson (.arr (.cons h t)) ++ rest
              = '[' :: (stringifyJson h ++ (stringifyArrTail t ++ (']' :: rest))) := by
            simp [stringifyJson, List.append_assoc]
          obtain ⟨c, t0, hct, hws, hbr⟩ := stringifyJson_head h
          have hdrop : dropWs (stringifyJson h ++ (stringifyArrTail t ++ (']' :: rest)))
              = stringifyJson h ++ (stringifyArrTail t ++ (']' :: rest)) :=
            dropWs_stringify_append h _
          have hne : ¬ ((dropWs (stringifyJson h ++ (stringifyArrTail t ++ (']' :: rest)))).head?
              = some ']') := by
            rw [hdrop, hct, List.cons_append, List.head?_cons]
            simp [hbr]
          have hlen2 : (stringifyJson h ++ stringifyArrTail t).length < fuel := by
            simp only [stringifyJson, List.length_cons, List.length_append,
              List.length_nil] at hlen
            simp only [List.length_append]
            omega
          rw [harg, parseVal_arrCons, if_neg hne, ihA h t rest hlen2]
      | obj o =>
        cases o with
        | nil => rfl
        | cons k v t =>
          have harg : stringifyJson (.obj (.cons k v t)) ++ rest
              = '\x7b' :: ('"' :: (escChars k
                  ++ ('"' :: (':' :: (stringifyJson v ++ (stringifyObjTail t ++ ('\x7d' :: rest))))))) := by
            simp [stringifyJson, List.append_assoc]
          have hne : ¬ ((dropWs ('"' :: (escChars k
              ++ ('"' :: (':' :: (stringifyJson v ++ (stringifyObjTail t ++ ('\x7d' :: rest)))))))).head?
              = some '\x7d') := by
            rw [dropWs_cons_of (by decide), List.head?_cons]
            decide
          have hlen3 : ('"' :: (escChars k
              ++ ('"' :: (':' :: (stringifyJson v ++ stringifyObjTail t))))).length < fuel := by
            simp only [stringifyJson, List.length_cons, List.length_append,
              List.length_nil] at hlen
            simp only [List.length_cons, List.length_append]
            omega
          rw [harg, parseVal_objCons, if_neg hne, ihO k v t rest hlen3]
    · intro h t rest hlen
      have hlenh : (stringifyJson h).length ≤ fuel := by
        simp only [List.length_append] at hlen
        omega
      have hgood : goodTail (stringifyArrTail t ++ (']' :: rest)) = true := by
        cases t with
        | nil => rfl
        | cons h2 t2 => rfl
      rw [parseItems_step, ihV h (stringifyArrTail t ++ (']' :: rest)) hlenh hgood]
      cases t with
      | nil =>
        rw [show stringifyArrTail JsonArr.nil ++ (']' :: rest) = ']' :: rest from rfl]
        rfl
      | cons h2 t2 =>
        have hsplit : stringifyArrTail (JsonArr.cons h2 t2) ++ (']' :: rest)
            = ',' :: (stringifyJson h2 ++ (stringifyArrTail t2 ++ (']' :: rest))) := by
          simp [stringifyArrTail, List.append_assoc]
        have hlen22 : (stringifyJson h2 ++ stringifyArrTail t2).length < fuel := by
          simp only [List.length_append, stringifyArrTail, List.length_cons] at hlen
          simp only [List.length_append]
          omega
        rw [hsplit]
        show (match parseItems fuel (stringifyJson h2 ++ (stringifyArrTail t2 ++ (']' :: rest))) with
              | none => none
              | some (l, r3) => some (JsonArr.cons h l, r3))
            = some (JsonArr.cons h (JsonArr.cons h2 t2), rest)
        rw [ihA h2 t2 rest hlen22]
    · intro k v t rest hlen
      have hk : k.length < fuel := by
        simp only [List.length_cons, List.length_append] at hlen
        have := escChars_length_ge k
        omega
      have hv : (stringifyJson v).length ≤ fuel := by
        simp only [List.length_cons, List.length_append] at hlen
        omega
      have hgood : goodTail (stringifyObjTail t ++ ('\x7d' :: rest)) = true := by
        cases t with
        | nil => rfl
        | cons k2 v2 t2 => rfl
      rw [parseMembers_step,
        parseStringBody_escChars k fuel (':' :: (stringifyJson v ++ (stringifyObjTail t ++ ('\x7d' :: rest)))) hk]
      show (match parseVal fuel (stringifyJson v ++ (stringifyObjTail t ++ ('\x7d' :: rest))) with
            | none => none
            | some (v2, r3) =>
              match dropWs r3 with
              | [] => none
              | c4 :: r4 =>
                if c4 = ',' then
                  match parseMembers fuel r4 with
                  | none => none
                  | some (m, r5) => some (JsonObj.cons k v2 m, r5)
                else if c4 = '\x7d' then some (JsonObj.cons k v2 .nil, r4)
                else none)
          = some (JsonObj.cons k v t, rest)
      rw [ihV v (stringifyObjTail t ++ ('\x7d' :: rest)) hv hgood]
      cases t with
      | nil =>
        rw [show stringifyObjTail JsonObj.nil ++ ('\x7d' :: rest) = '\x7d' :: rest from rfl]
        rfl
      | cons k2 v2 t2 =>
        have hsplit : stringifyObjTail (JsonObj.cons k2 v2 t2) ++ ('\x7d' :: rest)
            = ',' :: ('"' :: (escChars k2
                ++ ('"' :: (':' :: (stringifyJson v2 ++ (stringifyObjTail t2 ++ ('\x7d' :: rest))))))) := by
          simp [stringifyObjTail, List.append_assoc]
        have hlen32 : ('"' :: (escChars k2
            ++ ('"' :: (':' :: (stringifyJson v2 ++ stringifyObjTail t2))))).length < fuel := by
          simp only [List.length_cons, List.length_append, stringifyObjTail] at hlen
          simp only [List.length_cons, List.length_append]
          omega
        rw [hsplit]
        show (match parseMembers fuel ('"' :: (escChars k2
                ++ ('"' :: (':' :: (stringifyJson v2 ++ (stringifyObjTail t2 ++ ('\x7d' :: rest))))))) with
              | none => none
              | some (m, r5) => some (JsonObj.cons k v m, r5))
            = some (JsonObj.cons k v (JsonObj.cons k2 v2 t2), rest)
        rw [ihO k2 v2 t2 rest hlen32]

/-- The codec round-trip at the JSON.parse / JSON.stringify level: parsing a
serialized value recovers it exactly. -/
theorem parseJson_stringify (j : Json) : parseJson (stringifyJson j) = some j := by
  have h := (parse_stringify_all ((stringifyJson j).length + 1)).1 j [] (by omega) rfl
  rw [List.append_nil] at h
  rw [parseJson, h]
  rfl

/-! ## Path lemmas for the worker engine -/

theorem strTruthy_some {o : Option String} (h : strTruthy o = true) :
    ∃ s, o = some s ∧ s ≠ "" := by
  cases o with
  | none => simp [strTruthy] at h
  | some s =>
    refine ⟨s, rfl, ?_⟩
    intro he
    subst he
    simp [strTruthy] at h

theorem strTruthy_getD {o : Option String} (h : strTruthy o = true) :
    some (o.getD "") = o := by
  obtain ⟨s, rfl, _⟩ := strTruthy_some h
  rfl

theorem publishUpdate_ok (st : WorkerState) (src : Message) (data : JsData)
    (typ msgId : String) (now : Nat) {ct : String} {body : List Char}
    (hr : strTruthy src.properties.replyTo = true)
    (henc : encodeBody data = .ok (ct, body)) :
    publishUpdate st src data typ msgId now
      = .ok (.publish st.taskExchangeName (src.properties.replyTo.getD "")
          body
          { persistent := true
            mandatory := false
            contentType := ct
            contentEncoding := "utf8"
            messageId := msgId
            timestamp := now
            appId := st.appId
            type := typ
            correlationId := src.properties.messageId
            replyTo := none }) := by
  rw [publishUpdate, if_neg (by simp [hr]), henc]

/-- When the buffer conversion throws — the data is undefined or null — the
whole publishUpdate call throws that TypeError and publishes nothing. -/
theorem publishUpdate_encode_throw (st : WorkerState) (src : Message)
    (data : JsData) (typ msgId : String) (now : Nat) {e : JsError}
    (hr : strTruthy src.properties.replyTo = true)
    (henc : encodeBody data = .error e) :
    publishUpdate st src data typ msgId now = .error e := by
  rw [publishUpdate, if_neg (by simp [hr]), henc]

/-- Every action publishUpdate emits is a publish of the given type,
correlated with the source delivery. -/
theorem publishUpdate_shape (st : WorkerState) (src : Message) (data : JsData)
    (typ msgId : String) (now : Nat) (a : ChannelAction)
    (h : publishUpdate st src data typ msgId now = .ok a) :
    actionType a = some typ ∧ publishCorrelated src.properties a := by
  rw [publishUpdate] at h
  by_cases hr : strTruthy src.properties.replyTo = false
  · rw [if_pos hr] at h
    cases h
  · rw [if_neg hr] at h
    cases henc : encodeBody data with
    | error e =>
      rw [henc] at h
      cases h
    | ok p =>
      obtain ⟨ct, body⟩ := p
      rw [henc] at h
      cases h
      refine ⟨rfl, ?_⟩
      show src.properties.messageId = src.properties.messageId ∧
        some (src.properties.replyTo.getD "") = src.properties.replyTo
      exact ⟨rfl,
        strTruthy_getD (by revert hr; cases strTruthy src.properties.replyTo <;> simp)⟩

theorem processLogs_ok (st : WorkerState) (src : Message) (us : Nat → String)
    (now : Nat) (hr : strTruthy src.properties.replyTo = true) :
    ∀ (logs : List (LogLevel × JsonArr)) (i : Nat),
      ∃ acts, processLogs st src us now i logs = (acts, i + logs.length, none) ∧
        ∀ a ∈ acts, isLogUpdate a = true ∧ publishCorrelated src.properties a := by
  intro logs
  induction logs with
  | nil =>
    intro i
    exact ⟨[], by simp [processLogs], by simp⟩
  | cons p rest ih =>
    intro i
    obtain ⟨lvl, args⟩ := p
    obtain ⟨acts, hacts, hall⟩ := ih (i + 1)
    obtain ⟨a0, hpub⟩ : ∃ a0,
        publishUpdate st src (.obj (.arr args)) (logType lvl) (us i) now = .ok a0 :=
      ⟨_, publishUpdate_ok st src _ _ _ now hr rfl⟩
    refine ⟨a0 :: acts, ?_, ?_⟩
    · have harith : i + ((lvl, args) :: rest).length = i + 1 + rest.length := by
        simp only [List.length_cons]
        omega
      rw [processLogs, hpub, hacts, harith]
    · intro a ha
      rcases List.mem_cons.mp ha with rfl | hmem
      · have hshape := publishUpdate_shape st src _ _ _ now _ hpub
        constructor
        · rw [isLogUpdate, hshape.1]
          cases lvl <;> rfl
        · exact hshape.2
      · exact hall a hmem

theorem handleMessage_badContentType (st : WorkerState) (wf : Json → WorkRun)
    (us : Nat → String) (now : Nat) (msg : Message)
    (hct : msg.properties.contentType ≠ some "application/json")
    (hr : strTruthy msg.properties.replyTo = true) :
    ∃ a, publishUpdate st msg
        (.obj (.obj (errToJSONData (.unsupportedContentType msg.properties.contentType))))
        "result:error" (us 0) now = .ok a ∧
      handleMessage st wf us now (some msg)
        = { actions := [a, .nack false false], workerCalled := false, leaked := none } := by
  have hpub := publishUpdate_ok st msg
    (.obj (.obj (errToJSONData (.unsupportedContentType msg.properties.contentType))))
    "result:error" (us 0) now hr rfl
  refine ⟨_, hpub, ?_⟩
  rw [handleMessage, if_pos hct]
  simp only [respondError, faultToJSONData, hpub]

theorem handleMessage_malformed (st : WorkerState) (wf : Json → WorkRun)
    (us : Nat → String) (now : Nat) (msg : Message)
    (hct : msg.properties.contentType = some "application/json")
    (hp : parseJson msg.content = none)
    (hr : strTruthy msg.properties.replyTo = true) :
    ∃ a, publishUpdate st msg
        (.obj (.obj (errToJSONData (.malformedMessage (some jsonParseErrMsg)))))
        "result:error" (us 0) now = .ok a ∧
      handleMessage st wf us now (some msg)
        = { actions := [a, .nack false false], workerCalled := false, leaked := none } := by
  have hpub := publishUpdate_ok st msg
    (.obj (.obj (errToJSONData (.malformedMessage (some jsonParseErrMsg)))))
    "result:error" (us 0) now hr rfl
  refine ⟨_, hpub, ?_⟩
  rw [handleMessage, if_neg (by simp [hct]), hp]
  simp only [respondError, faultToJSONData, hpub]

theorem handleMessage_success (st : WorkerState) (wf : Json → WorkRun)
    (us : Nat → String) (now : Nat) (msg : Message) (payload : Json) (v : JsData)
    (ct : String) (body : List Char)
    (hct : msg.properties.contentType = some "application/json")
    (hp : parseJson msg.content = some payload)
    (hr : strTruthy msg.properties.replyTo = true)
    (hout : (wf payload).outcome = .ok v)
    (henc : encodeBody v = .ok (ct, body)) :
    ∃ logActs a,
      (∀ x ∈ logActs, isLogUpdate x = true ∧ publishCorrelated msg.properties x) ∧
      publishUpdate st msg v "result:success" (us (wf payload).logs.length) now = .ok a ∧
      handleMessage st wf us now (some msg)
        = { actions := logActs ++ [.ack false, a], workerCalled := true, leaked := none } := by
  obtain ⟨logActs, hlogs, hall⟩ := processLogs_ok st msg us now hr (wf payload).logs 0
  rw [Nat.zero_add] at hlogs
  have hpub := publishUpdate_ok st msg v "result:success"
    (us (wf payload).logs.length) now hr henc
  refine ⟨logActs, _, hall, hpub, ?_⟩
  rw [handleMessage, if_neg (by simp [hct])]
  simp only [hp]
  rw [hlogs]
  simp only [hout, respondSuccess, hpub]

/-- The double-settle path: the work function resolves with an undefined or
null result, respondSuccess acks and then its publishUpdate throws the
buffer-conversion TypeError, and the catch routes the TypeError to
respondError, which publishes its description and nacks the already-acked
delivery. -/
theorem handleMessage_success_throw (st : WorkerState) (wf : Json → WorkRun)
    (us : Nat → String) (now : Nat) (msg : Message) (payload : Json) (v : JsData)
    (e : JsError)
    (hct : msg.properties.contentType = some "application/json")
    (hp : parseJson msg.content = some payload)
    (hr : strTruthy msg.properties.replyTo = true)
    (hout : (wf payload).outcome = .ok v)
    (henc : encodeBody v = .error e) :
    ∃ logActs a,
      (∀ x ∈ logActs, isLogUpdate x = true ∧ publishCorrelated msg.properties x) ∧
      publishUpdate st msg (.obj (.obj (errToJSONData e))) "result:error"
        (us (wf payload).logs.length) now = .ok a ∧
      handleMessage st wf us now (some msg)
        = { actions := logActs ++ [.ack false] ++ [a, .nack false false],
            workerCalled := true, leaked := none } := by
  obtain ⟨logActs, hlogs, hall⟩ := processLogs_ok st msg us now hr (wf payload).logs 0
  rw [Nat.zero_add] at hlogs
  have hthrow := publishUpdate_encode_throw st msg v "result:success"
    (us (wf payload).logs.length) now hr henc
  have hpub := publishUpdate_ok st msg (.obj (.obj (errToJSONData e))) "result:error"
    (us (wf payload).logs.length) now hr rfl
  refine ⟨logActs, _, hall, hpub, ?_⟩
  rw [handleMessage, if_neg (by simp [hct])]
  simp only [hp]
  rw [hlogs]
  simp only [hout, respondSuccess, hthrow, respondError, faultToJSONData, hpub]

theorem handleMessage_fault (st : WorkerState) (wf : Json → WorkRun)
    (us : Nat → String) (now : Nat) (msg : Message) (payload : Json)
    (f : JsFault) (d : JsonObj)
    (hct : msg.properties.contentType = some "application/json")
    (hp : parseJson msg.content = some payload)
    (hr : strTruthy msg.properties.replyTo = true)
    (hout : (wf payload).outcome = .error f)
    (hfd : faultToJSONData f = some d) :
    ∃ logActs a,
      (∀ x ∈ logActs, isLogUpdate x = true ∧ publishCorrelated msg.properties x) ∧
      publishUpdate st msg (.obj (.obj d)) "result:error"
        (us (wf payload).logs.length) now = .ok a ∧
      handleMessage st wf us now (some msg)
        = { actions := logActs ++ [a, .nack false false], workerCalled := true, leaked := none } := by
  obtain ⟨logActs, hlogs, hall⟩ := processLogs_ok st msg us now hr (wf payload).logs 0
  rw [Nat.zero_add] at hlogs
  have hpub := publishUpdate_ok st msg (.obj (.obj d)) "result:error"
    (us (wf payload).logs.length) now hr rfl
  refine ⟨logActs, _, hall, hpub, ?_⟩
  rw [handleMessage, if_neg (by simp [hct])]
  simp only [hp]
  rw [hlogs]
  simp only [hout, respondError, hfd, hpub]

/-- The pending path: the work function rejects with undefined or null, so
respondError's access to err.toJSON throws before any publish or nack; the
TypeError escapes as an unhandled rejection and the delivery is left
neither acked nor nacked. -/
theorem handleMessage_fault_nullish (st : WorkerState) (wf : Json → WorkRun)
    (us : Nat → String) (now : Nat) (msg : Message) (payload : Json) (f : JsFault)
    (hct : msg.properties.contentType = some "application/json")
    (hp : parseJson msg.content = some payload)
    (hr : strTruthy msg.properties.replyTo = true)
    (hout : (wf payload).outcome = .error f)
    (hfd : faultToJSONData f = none) :
    ∃ logActs,
      (∀ x ∈ logActs, isLogUpdate x = true ∧ publishCorrelated msg.properties x) ∧
      handleMessage st wf us now (some msg)
        = { actions := logActs, workerCalled := true,
            leaked := some (.generic "TypeError" (some typeErrMsg)) } := by
  obtain ⟨logActs, hlogs, hall⟩ := processLogs_ok st msg us now hr (wf payload).logs 0
  rw [Nat.zero_add] at hlogs
  refine ⟨logActs, hall, ?_⟩
  rw [handleMessage, if_neg (by simp [hct])]
  simp only [hp]
  rw [hlogs]
  simp only [hout, respondError, hfd, List.append_nil]

/-! ## Facts about the trace observations -/

theorem isResultError_true {a : ChannelAction}
    (h : actionType a = some "result:error") : isResultError a = true := by
  simp [isResultError, h]

theorem isResultSuccess_true {a : ChannelAction}
    (h : actionType a = some "result:success") : isResultSuccess a = true := by
  simp [isResultSuccess, h]

theorem isLogUpdate_not_result {a : ChannelAction} (h : isLogUpdate a = true) :
    isResultError a = false ∧ isResultSuccess a = false ∧ isAckNack a = false := by
  simp only [isLogUpdate, Bool.or_eq_true, decide_eq_true_eq] at h
  have hpub : isAckNack a = false := by
    cases a with
    | publish _ _ _ _ => rfl
    | ack _ => rcases h with (h | h) | h <;> simp [actionType] at h
    | nack _ _ => rcases h with (h | h) | h <;> simp [actionType] at h
  rcases h with (h | h) | h <;> simp [isResultError, isResultSuccess, h, hpub]

theorem isAckNack_ack (b : Bool) : isAckNack (.ack b) = true := rfl

theorem isAckNack_nack (b r : Bool) : isAckNack (.nack b r) = true := rfl

theorem isResultError_nack (b r : Bool) : isResultError (.nack b r) = false := rfl

theorem isResultSuccess_nack (b r : Bool) : isResultSuccess (.nack b r) = false := rfl

theorem error_publish_flags {a : ChannelAction}
    (h : actionType a = some "result:error") :
    isResultError a = true ∧ isResultSuccess a = false ∧ isAckNack a = false := by
  refine ⟨isResultError_true h, by simp [isResultSuccess, h], ?_⟩
  cases a with
  | publish _ _ _ _ => rfl
  | ack _ => simp [actionType] at h
  | nack _ _ => simp [actionType] at h

theorem success_publish_flags {a : ChannelAction}
    (h : actionType a = some "result:success") :
    isResultSuccess a = true ∧ isResultError a = false ∧ isAckNack a = false := by
  refine ⟨isResultSuccess_true h, by simp [isResultError, h], ?_⟩
  cases a with
  | publish _ _ _ _ => rfl
  | ack _ => simp [actionType] at h
  | nack _ _ => simp [actionType] at h

/-! ## Worker correlation, with or without a usable replyTo -/

theorem publishUpdate_noreply (st : WorkerState) (src : Message) (data : JsData)
    (typ msgId : String) (now : Nat) (hr : strTruthy src.properties.replyTo = false) :
    publishUpdate st src data typ msgId now
      = .error (.invalidOption "sourceMessage" "malformed" none) := by
  rw [publishUpdate, if_pos hr]

theorem processLogs_noreply (st : WorkerState) (src : Message) (us : Nat → String)
    (now : Nat) (hr : strTruthy src.properties.replyTo = false) :
    ∀ (logs : List (LogLevel × JsonArr)) (i : Nat),
      ∃ e2, processLogs st src us now i logs = ([], i, e2) := by
  intro logs i
  cases logs with
  | nil => exact ⟨none, rfl⟩
  | cons p rest =>
    obtain ⟨lvl, args⟩ := p
    refine ⟨some (.invalidOption "sourceMessage" "malformed" none), ?_⟩
    rw [processLogs, publishUpdate_noreply st src _ _ _ now hr]

/-- Every action handleMessage takes is correlated with the delivery that
caused it: each publish carries the source messageId as correlationId and is
routed to the source replyTo queue (and acks and nacks carry no routing
data), on every path, whether or not the delivery names a usable replyTo. -/
theorem handleMessage_correlated (st : WorkerState) (wf : Json → WorkRun)
    (us : Nat → String) (now : Nat) (msg : Message) :
    ∀ a ∈ (handleMessage st wf us now (some msg)).actions,
      publishCorrelated msg.properties a := by
  by_cases hr : strTruthy msg.properties.replyTo = true
  · by_cases hct : msg.properties.contentType = some "application/json"
    · cases hp : parseJson msg.content with
      | none =>
        obtain ⟨a, hpub, hres⟩ := handleMessage_malformed st wf us now msg hct hp hr
        intro x hx
        rw [hres] at hx
        rcases List.mem_cons.mp hx with rfl | hx2
        · exact (publishUpdate_shape st msg _ _ _ now _ hpub).2
        · rcases List.mem_cons.mp hx2 with rfl | hx3
          · trivial
          · cases hx3
      | some payload =>
        cases hout : (wf payload).outcome with
        | ok v =>
          cases henc : encodeBody v with
          | ok p =>
            obtain ⟨ct, body⟩ := p
            obtain ⟨pre, a, hall, hpub, hres⟩ :=
              handleMessage_success st wf us now msg payload v ct body hct hp hr hout henc
            intro x hx
            rw [hres] at hx
            rcases List.mem_append.mp hx with hx1 | hx2
            · exact (hall x hx1).2
            · rcases List.mem_cons.mp hx2 with rfl | hx3
              · trivial
              · rcases List.mem_cons.mp hx3 with rfl | hx4
                · exact (publishUpdate_shape st msg _ _ _ now _ hpub).2
                · cases hx4
          | error e =>
            obtain ⟨pre, a, hall, hpub, hres⟩ :=
              handleMessage_success_throw st wf us now msg payload v e hct hp hr hout henc
            intro x hx
            rw [hres] at hx
            rcases List.mem_append.mp hx with hx1 | hx2
            · rcases List.mem_append.mp hx1 with hx3 | hx4
              · exact (hall x hx3).2
              · rcases List.mem_cons.mp hx4 with rfl | hx5
                · trivial
                · cases hx5
            · rcases List.mem_cons.mp hx2 with rfl | hx3
              · exact (publishUpdate_shape st msg _ _ _ now _ hpub).2
              · rcases List.mem_cons.mp hx3 with rfl | hx4
                · trivial
                · cases hx4
        | error f =>
          cases hfd : faultToJSONData f with
          | some d =>
            obtain ⟨pre, a, hall, hpub, hres⟩ :=
              handleMessage_fault st wf us now msg payload f d hct hp hr hout hfd
            intro x hx
            rw [hres] at hx
            rcases List.mem_append.mp hx with hx1 | hx2
            · exact (hall x hx1).2
            · rcases List.mem_cons.mp hx2 with rfl | hx3
              · exact (publishUpdate_shape st msg _ _ _ now _ hpub).2
              · rcases List.mem_cons.mp hx3 with rfl | hx4
                · trivial
                · cases hx4
          | none =>
            obtain ⟨pre, hall, hres⟩ :=
              handleMessage_fault_nullish st wf us now msg payload f hct hp hr hout hfd
            intro x hx
            rw [hres] at hx
            exact (hall x hx).2
    · obtain ⟨a, hpub, hres⟩ := handleMessage_badContentType st wf us now msg hct hr
      intro x hx
      rw [hres] at hx
      rcases List.mem_cons.mp hx with rfl | hx2
      · exact (publishUpdate_shape st msg _ _ _ now _ hpub).2
      · rcases List.mem_cons.mp hx2 with rfl | hx3
        · trivial
        · cases hx3
  · have hrf : strTruthy msg.properties.replyTo = false := by
      revert hr
      cases strTruthy msg.properties.replyTo <;> simp
    by_cases hct : msg.properties.contentType = some "application/json"
    · cases hp : parseJson msg.content with
      | none =>
        intro x hx
        rw [handleMessage, if_neg (by simp [hct]), hp] at hx
        simp only [respondError, faultToJSONData,
          publishUpdate_noreply st msg _ _ _ now hrf] at hx
        cases hx
      | some payload =>
        obtain ⟨e2, hlogs⟩ := processLogs_noreply st msg us now hrf (wf payload).logs 0
        intro x hx
        rw [handleMessage, if_neg (by simp [hct])] at hx
        simp only [hp] at hx
        rw [hlogs] at hx
        cases e2 with
        | some e =>
          rw [show ((([] : List ChannelAction), (0 : Nat), some e)
                : List ChannelAction × Nat × Option JsError)
              = ([], 0, some e) from rfl] at hx
          simp only [respondError, faultToJSONData,
            publishUpdate_noreply st msg _ _ _ now hrf] at hx
          cases hx
        | none =>
          cases hout : (wf payload).outcome with
          | ok v =>
            simp only [hout, respondSuccess, respondError, faultToJSONData,
              publishUpdate_noreply st msg _ _ _ now hrf] at hx
            rcases List.mem_cons.mp hx with rfl | hx2
            · trivial
            · cases hx2
          | error f =>
            cases hfd : faultToJSONData f with
            | none =>
              simp only [hout, respondError, hfd] at hx
              cases hx
            | some d =>
              simp only [hout, respondError, hfd,
                publishUpdate_noreply st msg _ _ _ now hrf] at hx
              cases hx
    · intro x hx
      rw [handleMessage, if_pos hct] at hx
      simp only [respondError, faultToJSONData,
        publishUpdate_noreply st msg _ _ _ now hrf] at hx
      cases hx

/-! ## The claims -/

/-- Claim C1, counterexample.  The claim states that the terminal Update
Envelope is always published before the broker-level ack or nack and that
the ack or nack is the last action for the delivery.  On the success path
the code does the opposite: respondSuccess acks first and publishes the
result:success update afterwards, so on this concrete successful delivery
the action trace is an ack followed by the terminal publish — the terminal
publish comes after the ack, and the last action is not an ack or nack. -/
theorem C1_counterexample :
    (handleMessage wst0 wfPure us0 0 (some msgJson0)).actions.head?
      = some (ChannelAction.ack false) ∧
    (handleMessage wst0 wfPure us0 0 (some msgJson0)).actions.map actionType
      = [none, some "result:success"] ∧
    ((handleMessage wst0 wfPure us0 0 (some msgJson0)).actions.getLast?).map isAckNack
      = some false :=
  ⟨rfl, rfl, rfl⟩

/-- Claim C1, amended.  For every delivered Work Envelope with a usable
replyTo, the trace of the handling routine is zero or more log publishes
followed by terminal actions in one of four shapes: on every rejection path
whose fault value yields a description, the result:error Update Envelope is
published immediately before the final nack, the nack last; on the success
path with an encodable result, the broker ack comes first and the
result:success Update Envelope is published after it, as the last action;
on the success path with an undefined or null result, the ack comes first,
then the buffer conversion throws and the catch publishes a result:error
Update Envelope and nacks the already-acked delivery; and on a rejection
whose fault value is undefined or null there is no terminal action at all —
the description access throws before any publish or nack, leaving the
delivery pending.  Whenever a nack occurs, a result:error publish
immediately precedes it and the nack is last; whenever respondSuccess runs,
its ack precedes the terminal publish. -/
theorem C1_publish_ack_order (st : WorkerState) (wf : Json → WorkRun)
    (us : Nat → String) (now : Nat) (msg : Message)
    (hr : strTruthy msg.properties.replyTo = true) :
    ∃ pre, (∀ x ∈ pre, isLogUpdate x = true) ∧
      ((∃ a, isResultError a = true ∧
         (handleMessage st wf us now (some msg)).actions
           = pre ++ [a, .nack false false]) ∨
       (∃ b, isResultSuccess b = true ∧
         (handleMessage st wf us now (some msg)).actions
           = pre ++ [.ack false, b]) ∨
       (∃ a, isResultError a = true ∧
         (handleMessage st wf us now (some msg)).actions
           = pre ++ [.ack false] ++ [a, .nack false false]) ∨
       (handleMessage st wf us now (some msg)).actions = pre) := by
  by_cases hct : msg.properties.contentType = some "application/json"
  · cases hp : parseJson msg.content with
    | none =>
      obtain ⟨a, hpub, hres⟩ := handleMessage_malformed st wf us now msg hct hp hr
      exact ⟨[], by simp, Or.inl ⟨a,
        isResultError_true (publishUpdate_shape st msg _ _ _ now _ hpub).1,
        by rw [hres]; rfl⟩⟩
    | some payload =>
      cases hout : (wf payload).outcome with
      | ok v =>
        cases henc : encodeBody v with
        | ok p =>
          obtain ⟨ct, body⟩ := p
          obtain ⟨pre, a, hall, hpub, hres⟩ :=
            handleMessage_success st wf us now msg payload v ct body hct hp hr hout henc
          exact ⟨pre, fun x hx => (hall x hx).1, Or.inr (Or.inl ⟨a,
            isResultSuccess_true (publishUpdate_shape st msg _ _ _ now _ hpub).1,
            by rw [hres]⟩)⟩
        | error e =>
          obtain ⟨pre, a, hall, hpub, hres⟩ :=
            handleMessage_success_throw st wf us now msg payload v e hct hp hr hout henc
          exact ⟨pre, fun x hx => (hall x hx).1, Or.inr (Or.inr (Or.inl ⟨a,
            isResultError_true (publishUpdate_shape st msg _ _ _ now _ hpub).1,
            by rw [hres]⟩))⟩
      | error f =>
        cases hfd : faultToJSONData f with
        | some d =>
          obtain ⟨pre, a, hall, hpub, hres⟩ :=
            handleMessage_fault st wf us now msg payload f d hct hp hr hout hfd
          exact ⟨pre, fun x hx => (hall x hx).1, Or.inl ⟨a,
            isResultError_true (publishUpdate_shape st msg _ _ _ now _ hpub).1,
            by rw [hres]⟩⟩
        | none =>
          obtain ⟨pre, hall, hres⟩ :=
            handleMessage_fault_nullish st wf us now msg payload f hct hp hr hout hfd
          exact ⟨pre, fun x hx => (hall x hx).1,
            Or.inr (Or.inr (Or.inr (by rw [hres])))⟩
  · obtain ⟨a, hpub, hres⟩ := handleMessage_badContentType st wf us now msg hct hr
    exact ⟨[], by simp, Or.inl ⟨a,
      isResultError_true (publishUpdate_shape st msg _ _ _ now _ hpub).1,
      by rw [hres]; rfl⟩⟩

/-- Claim C1, witness for the amended theorem at a concrete faulting
delivery. -/
theorem C1_witness :
    strTruthy msgJson0.properties.replyTo = true ∧
    (∃ pre, (∀ x ∈ pre, isLogUpdate x = true) ∧
      ((∃ a, isResultError a = true ∧
         (handleMessage wst0 wfFail us0 0 (some msgJson0)).actions
           = pre ++ [a, .nack false false]) ∨
       (∃ b, isResultSuccess b = true ∧
         (handleMessage wst0 wfFail us0 0 (some msgJson0)).actions
           = pre ++ [.ack false, b]) ∨
       (∃ a, isResultError a = true ∧
         (handleMessage wst0 wfFail us0 0 (some msgJson0)).actions
           = pre ++ [.ack false] ++ [a, .nack false false]) ∨
       (handleMessage wst0 wfFail us0 0 (some msgJson0)).actions = pre)) :=
  ⟨rfl, C1_publish_ack_order wst0 wfFail us0 0 msgJson0 rfl⟩

/-- Claim C2, refuted by the source: the settled-exactly-once invariant
fails on two families of inputs.  First, a valid JSON delivery whose work
function resolves with undefined (it returns no value): respondSuccess acks
the delivery, then its publishUpdate throws a TypeError converting the
result to a buffer, and the catch routes the TypeError to respondError,
which publishes a result:error update and nacks the already-acked delivery
— two broker settlements for one delivery.  Second, a valid JSON delivery
whose work function rejects with the value undefined: respondError's access
to err.toJSON throws before any publish or nack, so the delivery is left
pending — zero settlements.  This theorem evaluates the model at both
failing inputs: the first trace is an ack, then a result:error publish,
then a nack (two ack/nack actions, ack first, nack last); the second trace
is empty, with the TypeError escaping as an unhandled rejection. -/
theorem C2_double_settle :
    (handleMessage wst0 wfNoResult us0 0 (some msgJson0)).actions.head?
      = some (ChannelAction.ack false) ∧
    (handleMessage wst0 wfNoResult us0 0 (some msgJson0)).actions.getLast?
      = some (ChannelAction.nack false false) ∧
    (handleMessage wst0 wfNoResult us0 0 (some msgJson0)).actions.map actionType
      = [none, some "result:error", none] ∧
    List.countP isAckNack (handleMessage wst0 wfNoResult us0 0 (some msgJson0)).actions
      = 2 ∧
    (handleMessage wst0 wfNullishThrow us0 0 (some msgJson0)).actions = [] ∧
    (handleMessage wst0 wfNullishThrow us0 0 (some msgJson0)).leaked
      = some (.generic "TypeError" (some typeErrMsg)) :=
  ⟨rfl, rfl, rfl, rfl, rfl, rfl⟩

/-- Claim C3: a delivery whose contentType is not application/json is
answered with a result:error Update Envelope carrying the
UnsupportedContentType description and a nack with allUpTo false and
requeue false; a delivery whose body is not valid JSON is answered the same
way with a MalformedMessage description; in both cases the registered work
function is never invoked and nothing else happens. -/
theorem C3_framing_rejection (st : WorkerState) (wf : Json → WorkRun)
    (us : Nat → String) (now : Nat) (msg : Message)
    (hr : strTruthy msg.properties.replyTo = true) :
    (msg.properties.contentType ≠ some "application/json" →
      ∃ a, publishUpdate st msg
          (.obj (.obj (errToJSONData (.unsupportedContentType msg.properties.contentType))))
          "result:error" (us 0) now = .ok a ∧
        actionType a = some "result:error" ∧
        handleMessage st wf us now (some msg)
          = { actions := [a, .nack false false], workerCalled := false, leaked := none }) ∧
    (msg.properties.contentType = some "application/json" →
      parseJson msg.content = none →
      ∃ a, publishUpdate st msg
          (.obj (.obj (errToJSONData (.malformedMessage (some jsonParseErrMsg)))))
          "result:error" (us 0) now = .ok a ∧
        actionType a = some "result:error" ∧
        handleMessage st wf us now (some msg)
          = { actions := [a, .nack false false], workerCalled := false, leaked := none }) := by
  constructor
  · intro hct
    obtain ⟨a, hpub, hres⟩ := handleMessage_badContentType st wf us now msg hct hr
    exact ⟨a, hpub, (publishUpdate_shape st msg _ _ _ now _ hpub).1, hres⟩
  · intro hct hp
    obtain ⟨a, hpub, hres⟩ := handleMessage_malformed st wf us now msg hct hp hr
    exact ⟨a, hpub, (publishUpdate_shape st msg _ _ _ now _ hpub).1, hres⟩

/-- Claim C3, witness at a text/plain delivery and at a malformed-JSON
delivery. -/
theorem C3_witness :
    (strTruthy msgText0.properties.replyTo = true ∧
     msgText0.properties.contentType ≠ some "application/json" ∧
     ∃ a, publishUpdate wst0 msgText0
         (.obj (.obj (errToJSONData (.unsupportedContentType msgText0.properties.contentType))))
         "result:error" (us0 0) 0 = .ok a ∧
       actionType a = some "result:error" ∧
       handleMessage wst0 wfPure us0 0 (some msgText0)
         = { actions := [a, .nack false false], workerCalled := false, leaked := none }) ∧
    (strTruthy msgBad0.properties.replyTo = true ∧
     parseJson msgBad0.content = none ∧
     ∃ a, publishUpdate wst0 msgBad0
         (.obj (.obj (errToJSONData (.malformedMessage (some jsonParseErrMsg)))))
         "result:error" (us0 0) 0 = .ok a ∧
       actionType a = some "result:error" ∧
       handleMessage wst0 wfPure us0 0 (some msgBad0)
         = { actions := [a, .nack false false], workerCalled := false, leaked := none }) :=
  ⟨⟨rfl, by decide,
    (C3_framing_rejection wst0 wfPure us0 0 msgText0 rfl).1 (by decide)⟩,
   ⟨rfl, rfl,
    (C3_framing_rejection wst0 wfPure us0 0 msgBad0 rfl).2 rfl rfl⟩⟩

/-- Claim C4: when the work function of a valid delivery throws or rejects
with message error!!!, the handling routine publishes exactly one
result:error Update Envelope and no result:success Update Envelope; the one
error publish carries the serialized description of that fault (obtained
via toJSON when the fault defines it, else the name/message fallback), and
that description's message member is the string error!!!. -/
theorem C4_fault_single_error (st : WorkerState) (wf : Json → WorkRun)
    (us : Nat → String) (now : Nat) (msg : Message) (payload : Json) (e : JsError)
    (hct : msg.properties.contentType = some "application/json")
    (hp : parseJson msg.content = some payload)
    (hr : strTruthy msg.properties.replyTo = true)
    (hout : (wf payload).outcome = .error (.err e))
    (hmsg : errMessage e = some "error!!!") :
    List.countP isResultError (handleMessage st wf us now (some msg)).actions = 1 ∧
    List.countP isResultSuccess (handleMessage st wf us now (some msg)).actions = 0 ∧
    (∀ a ∈ (handleMessage st wf us now (some msg)).actions, isResultError a = true →
      ∃ ex rk o, a = .publish ex rk (stringifyJson (Json.obj (errToJSONData e))) o) ∧
    objLookup (errToJSONData e) "message".data = some (jstr "error!!!") := by
  obtain ⟨pre, a, hall, hpub, hres⟩ :=
    handleMessage_fault st wf us now msg payload (.err e) (errToJSONData e) hct hp hr hout rfl
  have hsh := publishUpdate_shape st msg _ _ _ now _ hpub
  have hfl := error_publish_flags hsh.1
  have hpre_e : List.countP isResultError pre = 0 :=
    List.countP_eq_zero.mpr
      (fun x hx => by simp [(isLogUpdate_not_result (hall x hx).1).1])
  have hpre_s : List.countP isResultSuccess pre = 0 :=
    List.countP_eq_zero.mpr
      (fun x hx => by simp [(isLogUpdate_not_result (hall x hx).1).2.1])
  have haval : a = ChannelAction.publish st.taskExchangeName
      (msg.properties.replyTo.getD "")
      (stringifyJson (Json.obj (errToJSONData e)))
      { persistent := true
        mandatory := false
        contentType := "application/json"
        contentEncoding := "utf8"
        messageId := us (wf payload).logs.length
        timestamp := now
        appId := st.appId
        type := "result:error"
        correlationId := msg.properties.messageId
        replyTo := none } := by
    have h2 := publishUpdate_ok st msg (.obj (.obj (errToJSONData e))) "result:error"
      (us (wf payload).logs.length) now hr rfl
    rw [hpub] at h2
    exact Except.ok.inj h2
  refine ⟨?_, ?_, ?_, ?_⟩
  · rw [hres]
    simp [List.countP_append, List.countP_cons, List.countP_nil, hpre_e, hfl.1,
      isResultError_nack]
  · rw [hres]
    simp [List.countP_append, List.countP_cons, List.countP_nil, hpre_s, hfl.2.1,
      isResultSuccess_nack]
  · intro x hx hxe
    rw [hres] at hx
    rcases List.mem_append.mp hx with hx1 | hx2
    · exact absurd hxe (by simp [(isLogUpdate_not_result (hall x hx1).1).1])
    · rcases List.mem_cons.mp hx2 with rfl | hx3
      · exact ⟨_, _, _, haval⟩
      · rcases List.mem_cons.mp hx3 with rfl | hx4
        · exact absurd hxe (by decide)
        · cases hx4
  · cases e with
    | invalidOption opt k m =>
      simp only [errMessage] at hmsg
      subst hmsg
      rfl
    | malformedMessage m =>
      simp only [errMessage] at hmsg
      subst hmsg
      rfl
    | unsupportedContentType m =>
      simp only [errMessage] at hmsg
      subst hmsg
      rfl
    | notConnected m =>
      simp only [errMessage] at hmsg
      subst hmsg
      rfl
    | generic n m =>
      simp only [errMessage] at hmsg
      subst hmsg
      rfl

/-- Claim C4, witness at a concrete delivery whose work function throws an
Error with message error!!!. -/
theorem C4_witness :
    msgJson0.properties.contentType = some "application/json" ∧
    parseJson msgJson0.content = some Json.null ∧
    strTruthy msgJson0.properties.replyTo = true ∧
    (wfFail Json.null).outcome = .error (.err (.generic "Error" (some "error!!!"))) ∧
    errMessage (.generic "Error" (some "error!!!")) = some "error!!!" ∧
    (List.countP isResultError (handleMessage wst0 wfFail us0 0 (some msgJson0)).actions = 1 ∧
     List.countP isResultSuccess (handleMessage wst0 wfFail us0 0 (some msgJson0)).actions = 0 ∧
     (∀ a ∈ (handleMessage wst0 wfFail us0 0 (some msgJson0)).actions,
        isResultError a = true →
        ∃ ex rk o, a = .publish ex rk
          (stringifyJson (Json.obj (errToJSONData (.generic "Error" (some "error!!!"))))) o) ∧
     objLookup (errToJSONData (.generic "Error" (some "error!!!"))) "message".data
       = some (jstr "error!!!")) :=
  ⟨rfl, rfl, rfl, rfl, rfl,
   C4_fault_single_error wst0 wfFail us0 0 msgJson0 Json.null
     (.generic "Error" (some "error!!!")) rfl rfl rfl rfl rfl⟩

/-- Claim C5: every action the worker takes for a delivery is correlated
with it — each published Update Envelope carries correlationId equal to the
delivery's messageId and is routed to the delivery's replyTo queue name —
and on the requester side schedule publishes the Work Envelope with
messageId set to the request id it returns and replyTo set to the
instance's own updates-queue name. -/
theorem C5_correlation_and_routing (wst : WorkerState) (wf : Json → WorkRun)
    (us : Nat → String) (now : Nat) (msg : Message) (a : ChannelAction)
    (ha : a ∈ (handleMessage wst wf us now (some msg)).actions)
    (cst : ClientState) (rid : String) (cnow : Nat) (data : Option Json)
    (hch : cst.channel = true) :
    publishCorrelated msg.properties a ∧
    ∃ body, schedule cst rid cnow data
        = .ok (.publish (some cst.workerExchangeName) cst.workerQueueName body
            { persistent := true
              mandatory := true
              contentType := "application/json"
              contentEncoding := "utf8"
              messageId := rid
              timestamp := cnow
              appId := cst.appId
              type := "work-request"
              correlationId := none
              replyTo := some cst.updatesQueueName }, rid) := by
  refine ⟨handleMessage_correlated wst wf us now msg a ha, ?_⟩
  rw [schedule.eq_def, if_neg (by simp [hch])]
  exact ⟨_, rfl⟩

/-- Claim C5, witness at the result:success publish of a concrete
successful delivery and a concrete connected requester. -/
theorem C5_witness :
    (ChannelAction.publish none "updates-q" "done".data
        { persistent := true
          mandatory := false
          contentType := "text/plain"
          contentEncoding := "utf8"
          messageId := "uuid-0"
          timestamp := 0
          appId := "worker-app"
          type := "result:success"
          correlationId := some "req-1"
          replyTo := none }
      ∈ (handleMessage wst0 wfPure us0 0 (some msgJson0)).actions) ∧
    clientOn.channel = true ∧
    (publishCorrelated msgJson0.properties
        (ChannelAction.publish none "updates-q" "done".data
          { persistent := true
            mandatory := false
            contentType := "text/plain"
            contentEncoding := "utf8"
            messageId := "uuid-0"
            timestamp := 0
            appId := "worker-app"
            type := "result:success"
            correlationId := some "req-1"
            replyTo := none }) ∧
     ∃ body, schedule clientOn "rid-1" 7 (some (Json.obj .nil))
        = .ok (.publish (some clientOn.workerExchangeName) clientOn.workerQueueName body
            { persistent := true
              mandatory := true
              contentType := "application/json"
              contentEncoding := "utf8"
              messageId := "rid-1"
              timestamp := 7
              appId := clientOn.appId
              type := "work-request"
              correlationId := none
              replyTo := some clientOn.updatesQueueName }, "rid-1")) :=
  ⟨by decide, rfl,
   C5_correlation_and_routing wst0 wfPure us0 0 msgJson0 _ (by decide)
     clientOn "rid-1" 7 (some (Json.obj .nil)) rfl⟩

/-- Claim C6: calling schedule before connect has established the channel
fails with NotConnected; the result carries no broker action, so nothing is
published. -/
theorem C6_not_connected (st : ClientState) (rid : String) (now : Nat)
    (data : Option Json) (hch : st.channel = false) :
    schedule st rid now data = .error (.notConnected (some "not connected")) := by
  rw [schedule.eq_def, if_pos hch]

/-- Claim C6, witness at a concrete unconnected requester. -/
theorem C6_witness :
    clientOff.channel = false ∧
    schedule clientOff "rid-1" 0 (some (Json.obj .nil))
      = .error (.notConnected (some "not connected")) :=
  ⟨rfl, C6_not_connected clientOff "rid-1" 0 (some (Json.obj .nil)) rfl⟩

/-- Claim C7: encoding a JSON object payload yields the JSON content type
with its serialized bytes and decoding those bytes per that content type
returns the original value; encoding a string payload yields the text/plain
content type and decoding returns the identical string. -/
theorem C7_encode_decode_roundtrip :
    (∀ m : JsonObj,
      encodeBody (.obj (.obj m)) = .ok ("application/json", stringifyJson (.obj m)) ∧
      decodeBody (some "application/json") (stringifyJson (.obj m)) = .ok (.json (.obj m))) ∧
    (∀ s : List Char,
      encodeBody (.str s) = .ok ("text/plain", s) ∧
      decodeBody (some "text/plain") s = .ok (.raw s)) := by
  constructor
  · intro m
    refine ⟨rfl, ?_⟩
    rw [decodeBody, if_pos rfl, parseJson_stringify]
  · intro s
    refine ⟨rfl, ?_⟩
    rw [decodeBody, if_neg (by decide)]

/-- Claim C8, counterexample.  The claim states that at both decode sites a
non-JSON declared content type yields the raw bytes unchanged and a JSON
parse failure fails with MalformedMessage.  Neither half holds at both
sites: on this concrete text/plain delivery the worker does not pass the
raw bytes through — the work function is never invoked and the delivery is
answered with one result:error publish and one nack — and on this concrete
malformed JSON update the requester does not fail with MalformedMessage —
the uncaught SyntaxError of JSON.parse escapes handleUpdateMessage. -/
theorem C8_counterexample :
    (handleMessage wst0 wfPure us0 0 (some msgText0)).workerCalled = false ∧
    List.countP isResultError (handleMessage wst0 wfPure us0 0 (some msgText0)).actions = 1 ∧
    List.countP isAckNack (handleMessage wst0 wfPure us0 0 (some msgText0)).actions = 1 ∧
    handleUpdateMessage (some updBad0) = .error (.syntaxError jsonParseErrMsg) :=
  ⟨rfl, rfl, rfl, rfl⟩

/-- Claim C8, amended.  At the worker site a delivery declaring the JSON
content type whose body fails to parse is rejected with a MalformedMessage
description and nacked, and a delivery declaring any other content type is
rejected with an UnsupportedContentType description and nacked — never
yielding raw bytes to the work function.  At the requester site a JSON body
that fails to parse makes the handling throw the runtime's SyntaxError (not
MalformedMessage), and any other declared content type decodes to the raw
content unchanged. -/
theorem C8_decode_sites :
    (∀ (st : WorkerState) (wf : Json → WorkRun) (us : Nat → String) (now : Nat)
       (msg : Message),
      strTruthy msg.properties.replyTo = true →
      msg.properties.contentType = some "application/json" →
      parseJson msg.content = none →
      ∃ a, publishUpdate st msg
          (.obj (.obj (errToJSONData (.malformedMessage (some jsonParseErrMsg)))))
          "result:error" (us 0) now = .ok a ∧
        handleMessage st wf us now (some msg)
          = { actions := [a, .nack false false], workerCalled := false, leaked := none }) ∧
    (∀ (st : WorkerState) (wf : Json → WorkRun) (us : Nat → String) (now : Nat)
       (msg : Message),
      strTruthy msg.properties.replyTo = true →
      msg.properties.contentType ≠ some "application/json" →
      ∃ a, publishUpdate st msg
          (.obj (.obj (errToJSONData (.unsupportedContentType msg.properties.contentType))))
          "result:error" (us 0) now = .ok a ∧
        handleMessage st wf us now (some msg)
          = { actions := [a, .nack false false], workerCalled := false, leaked := none }) ∧
    (∀ (m : Message) (cid : String),
      m.properties.correlationId = some cid → cid ≠ "" →
      m.properties.contentType = some "application/json" →
      parseJson m.content = none →
      handleUpdateMessage (some m) = .error (.syntaxError jsonParseErrMsg)) ∧
    (∀ (ct : Option String) (content : List Char),
      ct ≠ some "application/json" →
      decodeBody ct content = .ok (.raw content)) := by
  refine ⟨?_, ?_, ?_, ?_⟩
  · intro st wf us now msg hr hct hp
    obtain ⟨a, hpub, hres⟩ := handleMessage_malformed st wf us now msg hct hp hr
    exact ⟨a, hpub, hres⟩
  · intro st wf us now msg hr hct
    obtain ⟨a, hpub, hres⟩ := handleMessage_badContentType st wf us now msg hct hr
    exact ⟨a, hpub, hres⟩
  · intro m cid hcid hcne hct hp
    have htr : strTruthy m.properties.correlationId = true := by
      rw [hcid]
      simp [strTruthy, hcne]
    simp [handleUpdateMessage, htr, decodeBody, hct, hp]
  · intro ct content hct
    rw [decodeBody, if_neg hct]

/-- Claim C8, witness for the amended theorem at the four concrete
scenarios. -/
theorem C8_witness :
    (strTruthy msgBad0.properties.replyTo = true ∧
     parseJson msgBad0.content = none ∧
     ∃ a, publishUpdate wst0 msgBad0
         (.obj (.obj (errToJSONData (.malformedMessage (some jsonParseErrMsg)))))
         "result:error" (us0 0) 0 = .ok a ∧
       handleMessage wst0 wfPure us0 0 (some msgBad0)
         = { actions := [a, .nack false false], workerCalled := false, leaked := none }) ∧
    (msgText0.properties.contentType ≠ some "application/json" ∧
     ∃ a, publishUpdate wst0 msgText0
         (.obj (.obj (errToJSONData (.unsupportedContentType msgText0.properties.contentType))))
         "result:error" (us0 0) 0 = .ok a ∧
       handleMessage wst0 wfPure us0 0 (some msgText0)
         = { actions := [a, .nack false false], workerCalled := false, leaked := none }) ∧
    (parseJson updBad0.content = none ∧
     handleUpdateMessage (some updBad0) = .error (.syntaxError jsonParseErrMsg)) ∧
    decodeBody (some "text/plain") "hello".data = .ok (.raw "hello".data) :=
  ⟨⟨rfl, rfl, C8_decode_sites.1 wst0 wfPure us0 0 msgBad0 rfl rfl rfl⟩,
   ⟨by decide, C8_decode_sites.2.1 wst0 wfPure us0 0 msgText0 rfl (by decide)⟩,
   ⟨rfl, C8_decode_sites.2.2.1 updBad0 "req-4" rfl (by decide) rfl rfl⟩,
   C8_decode_sites.2.2.2 (some "text/plain") "hello".data (by decide)⟩

/-- Claim C9: the requester drops (emits nothing for) any reply-queue
delivery without a truthy correlation id; for each of the five known update
kinds it emits exactly one event named after the kind, carrying the
correlation id and the decoded payload; any other type value only produces
the console warning — handling never fails on an unrecognized type. -/
theorem C9_update_demultiplexing :
    (∀ m : Message, strTruthy m.properties.correlationId = false →
      handleUpdateMessage (some m) = .ok []) ∧
    (∀ (m : Message) (cid k : String) (payload : Decoded),
      m.properties.correlationId = some cid → cid ≠ "" →
      decodeBody m.properties.contentType m.content = .ok payload →
      m.properties.type = some k →
      k ∈ (["result:success", "result:error", "log:info", "log:warning",
            "log:error"] : List String) →
      handleUpdateMessage (some m) = .ok [.emit k cid payload]) ∧
    (∀ (m : Message) (cid : String) (payload : Decoded),
      m.properties.correlationId = some cid → cid ≠ "" →
      decodeBody m.properties.contentType m.content = .ok payload →
      (∀ k ∈ (["result:success", "result:error", "log:info", "log:warning",
               "log:error"] : List String), m.properties.type ≠ some k) →
      handleUpdateMessage (some m) = .ok [.warnUnknown]) := by
  refine ⟨?_, ?_, ?_⟩
  · intro m h
    simp [handleUpdateMessage, h]
  · intro m cid k payload hcid hcne hdec ht hk
    have htr : strTruthy (some cid) = true := by
      simp [strTruthy, hcne]
    simp only [List.mem_cons, List.not_mem_nil, or_false] at hk
    rcases hk with rfl | rfl | rfl | rfl | rfl <;>
      simp [handleUpdateMessage, htr, hcid, hdec, ht]
  · intro m cid payload hcid hcne hdec hne
    have htr : strTruthy (some cid) = true := by
      simp [strTruthy, hcne]
    have h1 := hne "result:success" (by simp)
    have h2 := hne "result:error" (by simp)
    have h3 := hne "log:info" (by simp)
    have h4 := hne "log:warning" (by simp)
    have h5 := hne "log:error" (by simp)
    simp [handleUpdateMessage, htr, hcid, hdec, h1, h2, h3, h4, h5]

/-- Claim C9, witness at three concrete update deliveries: one without a
correlation id, one result:success, one with an unknown type. -/
theorem C9_witness :
    (strTruthy updNoCorr0.properties.correlationId = false ∧
     handleUpdateMessage (some updNoCorr0) = .ok []) ∧
    (decodeBody updSuccess0.properties.contentType updSuccess0.content
        = .ok (.json (Json.obj .nil)) ∧
     handleUpdateMessage (some updSuccess0)
        = .ok [.emit "result:success" "req-1" (.json (Json.obj .nil))]) ∧
    (handleUpdateMessage (some updUnknown0) = .ok [.warnUnknown]) :=
  ⟨⟨rfl, C9_update_demultiplexing.1 updNoCorr0 rfl⟩,
   ⟨rfl, C9_update_demultiplexing.2.1 updSuccess0 "req-1" "result:success"
      (.json (Json.obj .nil)) rfl (by decide) rfl rfl (by simp)⟩,
   C9_update_demultiplexing.2.2 updUnknown0 "req-1" (.json (Json.obj .nil))
     rfl (by decide) rfl (by decide)⟩

/-- Claim C10: a falsy payload (undefined, null, false, 0 or the empty
string) does not make schedule fail — the empty object is substituted, the
published Work Envelope's body is the JSON text of the empty object with
the JSON content type, and the freshly generated request id is returned. -/
theorem C10_falsy_payload (st : ClientState) (rid : String) (now : Nat)
    (data : Option Json) (hch : st.channel = true) (hf : jsTruthy data = false) :
    schedule st rid now data
      = .ok (.publish (some st.workerExchangeName) st.workerQueueName
          ['\x7b', '\x7d']
          { persistent := true
            mandatory := true
            contentType := "application/json"
            contentEncoding := "utf8"
            messageId := rid
            timestamp := now
            appId := st.appId
            type := "work-request"
            correlationId := none
            replyTo := some st.updatesQueueName }, rid) := by
  rw [schedule.eq_def, if_neg (by simp [hch])]
  cases data with
  | none => rfl
  | some j =>
    cases j with
    | null => rfl
    | bool b =>
      cases b with
      | false => rfl
      | true => simp [jsTruthy] at hf
    | num i =>
      by_cases hi : i = 0
      · subst hi
        rfl
      · simp [jsTruthy, hi] at hf
    | str s =>
      by_cases hs : s = []
      · subst hs
        rfl
      · simp [jsTruthy, hs] at hf
    | arr a => simp [jsTruthy] at hf
    | obj o => simp [jsTruthy] at hf

/-- Claim C10, witness at an absent payload. -/
theorem C10_witness :
    clientOn.channel = true ∧
    jsTruthy none = false ∧
    schedule clientOn "rid-2" 3 none
      = .ok (.publish (some clientOn.workerExchangeName) clientOn.workerQueueName
          ['\x7b', '\x7d']
          { persistent := true
            mandatory := true
            contentType := "application/json"
            contentEncoding := "utf8"
            messageId := "rid-2"
            timestamp := 3
            appId := clientOn.appId
            type := "work-request"
            correlationId := none
            replyTo := some clientOn.updatesQueueName }, "rid-2") :=
  ⟨rfl, rfl, C10_falsy_payload clientOn "rid-2" 3 none rfl rfl⟩

end AmqpWorker
